import Mathlib

/-!
Shallow embedding of the talaria backend (Strava activity sync and
training-zone analytics) in Lean 4, together with theorems settling the
specification claims about it.

Numbers: Python floats are modelled as rationals (`ℚ`), Python ints and
Unix timestamps as `ℤ`; `int()` conversion is truncation toward zero and
Python's `%` on floats is `x - y*⌊x/y⌋`.
-/

namespace Talaria

/-- Python `int(q)`: truncation toward zero. -/
def pyTrunc (q : ℚ) : ℤ :=
if 0 ≤ q then ⌊q⌋ else -⌊-q⌋

/-- Python `x % y` on floats (`y ≠ 0`): `x - y * floor (x / y)`. -/
def pyMod (x y : ℚ) : ℚ :=
x - y * ⌊x / y⌋

/-- Round to the nearest integer, ties to even (Python's `round`). -/
def roundHalfEven (q : ℚ) : ℤ :=
let f : ℤ := ⌊q⌋
let r : ℚ := q - f
if r < 1/2 then f else if 1/2 < r then f + 1 else if f % 2 = 0 then f else f + 1

/-- Python `round(q, 2)` modelled over rationals. -/
def pyRound2 (q : ℚ) : ℚ :=
(roundHalfEven (q * 100) : ℚ) / 100

/-- Python truthiness of an integer used as an optional query parameter:
`if n:` keeps the value only when it is nonzero. -/
def pyTruthyInt (n : ℤ) : Option ℤ :=
if n = 0 then none else some n

/-! ## `app/models/user_settings.py`: the `UserSettings` record -/

/-- `UserSettings` (sqlmodel table `user_settings`); datetimes are Unix
timestamps, floats are rationals. -/
structure UserSettings where
  id : Option ℤ
  athlete_id : ℤ
  zone_model_type : String
  max_heart_rate : ℤ
  rest_heart_rate : ℤ
  hr_zones : List ℚ
  pace_zones : List ℚ
  calendar_start_day : String
  distance_unit : String
  temperature_unit : String
  created_at : ℤ
  updated_at : ℤ
deriving DecidableEq, Repr

/-! ## `app/services/zone_calculator.py` -/

/-- Loop body of `calculate_hr_zones`: walk the percentage array keeping
the previous zone's upper bound; each upper bound is
`int(max_heart_rate * zone_percent / 100.0)`. -/
def hrZonesGo (maxHr : ℤ) (previous_max : ℤ) : List ℚ → List (ℤ × ℤ)
  | [] => []
  | p :: ps =>
    let zone_max : ℤ := pyTrunc ((maxHr : ℚ) * p / 100)
    (previous_max, zone_max) :: hrZonesGo maxHr zone_max ps

/-- `calculate_hr_zones(settings)`. -/
def calculate_hr_zones (s : UserSettings) : List (ℤ × ℤ) :=
if s.hr_zones = [] then []
else hrZonesGo s.max_heart_rate s.rest_heart_rate s.hr_zones

/-- The `for i, (min_bpm, max_bpm) in enumerate(zones, start=1)` loop of
`get_hr_zone`: first zone whose inclusive range contains the reading,
else `len(zones)` (the `total` argument). -/
def hrZoneLoop (hr : ℤ) : List (ℤ × ℤ) → ℕ → ℕ → ℕ
  | [], _, total => total
  | (mn, mx) :: rest, i, total =>
    if mn ≤ hr ∧ hr ≤ mx then i else hrZoneLoop hr rest (i + 1) total

/-- `get_hr_zone(heart_rate, settings)`. -/
def get_hr_zone (heart_rate : ℤ) (s : UserSettings) : ℕ :=
if heart_rate < s.rest_heart_rate then 0
else hrZoneLoop heart_rate (calculate_hr_zones s) 1 (calculate_hr_zones s).length

/-- Loop body of `calculate_pace_zones`; `none` stands for
`float('inf')` (zone 1 has no slower bound). -/
def paceZonesGo (previous_slower : Option ℚ) : List ℚ → List (Option ℚ × ℚ)
  | [] => []
  | t :: ts => (previous_slower, t) :: paceZonesGo (some t) ts

/-- `calculate_pace_zones(settings)`. -/
def calculate_pace_zones (s : UserSettings) : List (Option ℚ × ℚ) :=
if s.pace_zones = [] then []
else paceZonesGo none s.pace_zones

/-- `pace <= slower` where `slower` may be `float('inf')`. -/
def withinSlower (pace : ℚ) : Option ℚ → Bool
  | none => true
  | some q => decide (pace ≤ q)

/-- The search loop of `get_pace_zone`: index (1-based) of the first zone
with `faster <= pace <= slower`, or `none` if the loop falls through. -/
def paceZoneLoop (pace : ℚ) : List (Option ℚ × ℚ) → ℕ → Option ℕ
  | [], _ => none
  | (slower, faster) :: rest, i =>
    if faster ≤ pace ∧ withinSlower pace slower = true then some i
    else paceZoneLoop pace rest (i + 1)

/-- `get_pace_zone(pace, settings)`. -/
def get_pace_zone (pace : ℚ) (s : UserSettings) : ℕ :=
if s.pace_zones = [] then 0
else
  match paceZoneLoop pace (calculate_pace_zones s) 1 with
  | some i => i
  | none =>
    if pace < s.pace_zones.getLastD 0 then (calculate_pace_zones s).length else 0

/-- `all(zones[i] < zones[i+1] for i in range(len(zones)-1))`. -/
def ascStrict : List ℚ → Bool
  | [] => true
  | [_] => true
  | a :: b :: t => decide (a < b) && ascStrict (b :: t)

/-- `all(zones[i] > zones[i+1] for i in range(len(zones)-1))`. -/
def descStrict : List ℚ → Bool
  | [] => true
  | [_] => true
  | a :: b :: t => decide (a > b) && descStrict (b :: t)

/-- The `zone_counts` lookup of `validate_zone_array`. -/
def zoneCount (zone_model : String) : Option ℕ :=
if zone_model = "3_zone" then some 3
else if zone_model = "5_zone" then some 5
else if zone_model = "7_zone" then some 7
else none

/-- `validate_zone_array(zones, zone_type, zone_model)`. -/
def validate_zone_array (zones : List ℚ) (zone_type zone_model : String) :
    Bool × String :=
match zoneCount zone_model with
| none => (false, "Invalid zone model: " ++ zone_model)
| some expected_count =>
  if zones.length ≠ expected_count then
    (false, "Expected " ++ toString expected_count ++ " zones for " ++
      zone_model ++ ", got " ++ toString zones.length)
  else if zones.any (fun z => decide (z ≤ 0)) then
    (false, "All zone values must be positive")
  else if zone_type = "hr" then
    if ascStrict zones = false then
      (false, "HR zones must be in strictly ascending order")
    else if zones.any (fun z => decide (z < 0) || decide (z > 100)) then
      (false, "HR zone percentages must be between 0 and 100")
    else if zones.getLastD 0 ≠ 100 then
      (false, "Last HR zone must be 100% (maximum effort)")
    else (true, "")
  else if zone_type = "pace" then
    if descStrict zones = false then
      (false, "Pace zones must be in descending order (slower to faster)")
    else if zones.any (fun z => decide (z < 5/2) || decide (z > 10)) then
      (false, "Pace zones should be between 2.5 and 10.0 min/km")
    else (true, "")
  else (false, "Invalid zone type: " ++ zone_type)

/-! ## Pace formatting (`zone_calculator.py` and `strava_api.py`) -/

/-- Decimal digit character, `'0'`–`'9'`. -/
def digitCh (d : ℕ) : Char :=
Char.ofNat (48 + d)

/-- Decimal rendering worker; the fuel argument (any bound above the
digit count) only forces structural recursion. -/
def natReprCharsAux : ℕ → ℕ → List Char
  | 0, _ => []
  | fuel + 1, n =>
    if n < 10 then [digitCh n]
    else natReprCharsAux fuel (n / 10) ++ [digitCh (n % 10)]

/-- The decimal digit characters of a natural number, as produced by
Python `str`/f-string formatting. -/
def natReprChars (n : ℕ) : List Char :=
natReprCharsAux (n + 1) n

/-- Python `f"{m}"` for an integer. -/
def intReprChars (m : ℤ) : List Char :=
if m < 0 then '-' :: natReprChars m.natAbs else natReprChars m.toNat

/-- Python `f"{s:02d}"` (zero-pad to width 2). -/
def pad2Chars (s : ℤ) : List Char :=
if 0 ≤ s ∧ s < 10 then '0' :: natReprChars s.toNat else intReprChars s

/-- `format_pace(seconds_per_km)` from `zone_calculator.py`. -/
def format_pace (seconds_per_km : ℚ) : String :=
if seconds_per_km ≤ 0 then "0:00"
else
  let minutes : ℤ := ⌊seconds_per_km / 60⌋
  let seconds : ℤ := ⌊pyMod seconds_per_km 60⌋
  String.mk (intReprChars minutes ++ ':' :: pad2Chars seconds)

/-- Characters stripped by Python `str.strip()`. -/
def isPySpace (c : Char) : Bool :=
c = ' ' || c = '\t' || c = '\n' || c = '\r' || c = '\x0b' || c = '\x0c'

/-- Python `str.strip()` over a character list. -/
def stripChars (l : List Char) : List Char :=
((l.dropWhile isPySpace).reverse.dropWhile isPySpace).reverse

/-- Python `str.split(":")` over a character list. -/
def splitOnColon : List Char → List (List Char)
  | [] => [[]]
  | c :: t =>
    if c = ':' then [] :: splitOnColon t
    else
      match splitOnColon t with
      | [] => [[c]]
      | p :: ps => (c :: p) :: ps

/-- A decimal digit character. -/
def isDigitCh (c : Char) : Bool :=
decide (48 ≤ c.toNat) && decide (c.toNat ≤ 57)

/-- Value of a digit-character list read most-significant first. -/
def digitsAcc (l : List Char) : ℕ :=
l.foldl (fun a c => a * 10 + (c.toNat - 48)) 0

/-- Value of an all-digit character list, `none` otherwise. -/
def digitsVal (l : List Char) : Option ℕ :=
if l ≠ [] ∧ l.all isDigitCh then some (digitsAcc l) else none

/-- Python `int(str)`: optional surrounding whitespace, optional sign,
then decimal digits; `none` models the `ValueError`. -/
def pyParseInt (l : List Char) : Option ℤ :=
let s := stripChars l
if s = [] then none
else if s.headD ' ' = '-' then (digitsVal s.tail).map (fun n => -(n : ℤ))
else if s.headD ' ' = '+' then (digitsVal s.tail).map (fun n => (n : ℤ))
else (digitsVal s).map (fun n => (n : ℤ))

/-- `parse_pace(pace_string)` from `zone_calculator.py`. -/
def parse_pace (pace_string : String) : ℚ :=
match splitOnColon (stripChars pace_string.data) with
| [a, b] =>
  match pyParseInt a, pyParseInt b with
  | some m, some s => ((m * 60 + s : ℤ) : ℚ)
  | _, _ => 0
| _ => 0

/-- `format_pace(pace_min_per_km)` from `strava_api.py` (minutes-per-km
input, `None` rendered as "N/A"). -/
def strava_format_pace (pace_min_per_km : Option ℚ) : String :=
match pace_min_per_km with
| none => "N/A"
| some p =>
  let minutes : ℤ := pyTrunc p
  let seconds : ℤ := pyTrunc ((p - minutes) * 60)
  String.mk (intReprChars minutes ++ ':' :: pad2Chars seconds)

/-- `calculate_pace(distance_meters, time_seconds)` from `strava_api.py`. -/
def calculate_pace (distance_meters : ℚ) (time_seconds : ℤ) : Option ℚ :=
if distance_meters = 0 then none
else some ((time_seconds / 60 : ℚ) / (distance_meters / 1000))

/-! ## `calculate_splits` (`app/api/activities.py`) -/

/-- One entry of the list returned by `calculate_splits`. -/
structure SplitRec where
  split : ℤ
  distance : ℚ
  time : ℤ
  pace : ℚ
deriving DecidableEq, Repr

/-- `calculate_splits(distance, moving_time, split_distance)`. -/
def calculate_splits (distance : ℚ) (moving_time : ℤ)
    (split_distance : ℤ) : List SplitRec :=
if distance = 0 ∨ moving_time = 0 then []
else
  let num_splits : ℤ := pyTrunc (distance / split_distance)
  let time_per_split : ℚ := (moving_time : ℚ) / (distance / split_distance)
  let full : List SplitRec := (List.range num_splits.toNat).map (fun (i : ℕ) =>
    { split := (i : ℤ) + 1
      distance := (split_distance : ℚ)
      time := pyTrunc time_per_split
      pace := pyRound2 ((time_per_split / 60) / ((split_distance : ℚ) / 1000)) })
  let remainder : ℚ := pyMod distance split_distance
  if remainder > 0 then
    let remainder_time : ℚ := (remainder / distance) * moving_time
    full ++ [{ split := num_splits + 1
               distance := (pyTrunc remainder : ℚ)
               time := pyTrunc remainder_time
               pace := pyRound2 ((remainder_time / 60) / (remainder / 1000)) }]
  else full

/-! ## `decode_polyline` (`app/api/activities.py`) -/

/-- Zig-zag decode of one accumulated varint:
`~(result >> 1) if (result & 1) else (result >> 1)`. -/
def zigzagDecode (result : ℕ) : ℤ :=
if result % 2 = 1 then -((result / 2 : ℕ) : ℤ) - 1 else ((result / 2 : ℕ) : ℤ)

/-- The inner `while True` loop of `decode_polyline`: consume 5-bit groups
(`b = ord(c) - 63`, continue while `b >= 0x20`) accumulating
`result |= (b & 0x1f) << shift`.  `none` models running off the string
(Python would raise `IndexError`). -/
def polyVarint : List ℕ → ℕ → ℕ → Option (ℕ × List ℕ)
  | [], _, _ => none
  | c :: rest, shift, acc =>
    let b : ℤ := (c : ℤ) - 63
    let acc' : ℕ := acc.lor (((b.emod 32).toNat) <<< shift)
    if b < 32 then some (acc', rest) else polyVarint rest (shift + 5) acc'

/-- The outer `while index < len(polyline_str)` loop: decode a latitude
delta then a longitude delta, accumulate, and emit `(lat/1e5, lng/1e5)`. -/
def polyLoop : ℕ → List ℕ → ℤ → ℤ → Option (List (ℚ × ℚ))
  | _, [], _, _ => some []
  | 0, _ :: _, _, _ => none
  | fuel + 1, chars, lat, lng =>
    match polyVarint chars 0 0 with
    | none => none
    | some (r1, rest1) =>
      let lat' := lat + zigzagDecode r1
      match polyVarint rest1 0 0 with
      | none => none
      | some (r2, rest2) =>
        let lng' := lng + zigzagDecode r2
        match polyLoop fuel rest2 lat' lng' with
        | none => none
        | some coords => some (((lat' : ℚ) / 100000, (lng' : ℚ) / 100000) :: coords)

/-- `decode_polyline(polyline_str)`; `none` models an uncaught
`IndexError` on malformed input. -/
def decode_polyline (polyline_str : String) : Option (List (ℚ × ℚ)) :=
if polyline_str = "" then some []
else
  let chars := polyline_str.data.map Char.toNat
  polyLoop chars.length chars 0 0

/-! ## `retry_with_backoff` (`app/services/strava_api.py`)

The wrapped async call is modelled as a stream of outcomes, one per
attempt; the embedding returns the number of calls made, the list of
`asyncio.sleep` delays, and the final result. -/

/-- Outcome of one invocation of the wrapped function. -/
inductive CallOutcome where
  | success (v : ℕ)
  | httpError (status : ℕ)
  | otherError
deriving DecidableEq, Repr

/-- What `retry_with_backoff` ends with. -/
inductive RetryResult where
  | ok (v : ℕ)
  | raisedHttp (status : ℕ)
  | raisedOther
  | noneReturned
deriving DecidableEq, Repr

/-- `retry_with_backoff(func, max_retries, initial_delay, backoff_factor)`:
recursion over the remaining attempts of `for attempt in range(max_retries)`;
the head of the stream is the current attempt's outcome. -/
def retry_with_backoff (outs : ℕ → CallOutcome) :
    ℕ → ℚ → ℚ → ℕ × List ℚ × RetryResult
  | 0, _, _ => (0, [], RetryResult.noneReturned)
  | r + 1, delay, factor =>
    match outs 0 with
    | CallOutcome.success v => (1, [], RetryResult.ok v)
    | CallOutcome.httpError s =>
      if s = 401 ∨ s = 403 ∨ s = 404 then (1, [], RetryResult.raisedHttp s)
      else
        let d : ℚ := if s = 429 then 60 else delay
        if r = 0 then (1, [], RetryResult.raisedHttp s)
        else
          let rec_ := retry_with_backoff (fun n => outs (n + 1)) r (d * factor) factor
          (rec_.1 + 1, d :: rec_.2.1, rec_.2.2)
    | CallOutcome.otherError =>
      if r = 0 then (1, [], RetryResult.raisedOther)
      else
        let rec_ := retry_with_backoff (fun n => outs (n + 1)) r (delay * factor) factor
        (rec_.1 + 1, delay :: rec_.2.1, rec_.2.2)

/-- An outcome the wrapper retries: any failure whose status is not
401, 403 or 404. -/
def isRetryableFailure : CallOutcome → Bool
  | CallOutcome.success _ => false
  | CallOutcome.httpError s => !(decide (s = 401 ∨ s = 403 ∨ s = 404))
  | CallOutcome.otherError => true

/-- The delay slept after a failed attempt, given the current backoff
delay: a 429 escalates to the fixed 60-second cooldown. -/
def sleepDelay (o : CallOutcome) (delay : ℚ) : ℚ :=
match o with
| CallOutcome.httpError s => if s = 429 then 60 else delay
| _ => delay

/-- The exception re-raised when the final attempt fails. -/
def failureResult : CallOutcome → RetryResult
  | CallOutcome.success v => RetryResult.ok v
  | CallOutcome.httpError s => RetryResult.raisedHttp s
  | CallOutcome.otherError => RetryResult.raisedOther

/-- The first `k` sleep delays of the backoff schedule: each sleep is the
current delay (60 after a 429), and the delay is then multiplied by the
backoff factor. -/
def backoffSleeps (outs : ℕ → CallOutcome) (delay factor : ℚ) : ℕ → List ℚ
  | 0 => []
  | k + 1 =>
    let s := sleepDelay (outs 0) delay
    s :: backoffSleeps (fun n => outs (n + 1)) (s * factor) factor k

/-! ## `get_athlete_activities` request assembly (`strava_api.py`) -/

/-- Query parameters sent to `GET /athlete/activities`. -/
structure ListParams where
  page : ℕ
  per_page : ℕ
  after : Option ℤ
  before : Option ℤ
deriving DecidableEq, Repr

/-- The params dict built by `get_athlete_activities`: `per_page` clamped
to 200, and `after`/`before` included only when truthy (`if after:`). -/
def get_athlete_activities_params (after before : Option ℤ)
    (page per_page : ℕ) : ListParams :=
  { page := page
    per_page := min per_page 200
    after := match after with
      | none => none
      | some v => pyTruthyInt v
    before := match before with
      | none => none
      | some v => pyTruthyInt v }

/-! ## `transform_strava_activity` (`strava_api.py`) -/

/-- A raw Strava activity payload.  Fields read with `.get` are optional;
`start_date`/`start_date_local` are `none` when the key is missing or the
timestamp cannot be parsed, and `name` is `none` when missing
(`strava_data["name"]` raises `KeyError`). -/
structure StravaActivity where
  id : ℤ
  name : Option String
  distance : Option ℚ
  moving_time : Option ℤ
  elapsed_time : Option ℤ
  total_elevation_gain : Option ℚ
  sport_type : Option String
  type : Option String
  start_date : Option ℤ
  start_date_local : Option ℤ
  timezone : Option String
  average_speed : Option ℚ
  max_speed : Option ℚ
  average_heartrate : Option ℚ
  max_heartrate : Option ℤ
  has_heartrate : Option Bool
  average_cadence : Option ℚ
  elev_high : Option ℚ
  elev_low : Option ℚ
  map_summary_polyline : Option String
  calories : Option ℚ
  achievement_count : Option ℤ
  kudos_count : Option ℤ
  comment_count : Option ℤ
  athlete_count : Option ℤ
deriving DecidableEq, Repr

/-- The dictionary produced by `transform_strava_activity` (every key it
returns; `id`, `created_at` and `updated_at` are absent). -/
structure ActivityData where
  strava_id : ℤ
  athlete_id : ℤ
  name : String
  distance : ℚ
  moving_time : ℤ
  elapsed_time : ℤ
  total_elevation_gain : ℚ
  sport_type : String
  start_date : ℤ
  start_date_local : ℤ
  timezone : Option String
  average_speed : Option ℚ
  max_speed : Option ℚ
  average_heartrate : Option ℚ
  max_heartrate : Option ℤ
  has_heartrate : Bool
  average_cadence : Option ℚ
  elev_high : Option ℚ
  elev_low : Option ℚ
  polyline : Option String
  calories : Option ℚ
  achievement_count : Option ℤ
  kudos_count : Option ℤ
  comment_count : Option ℤ
  athlete_count : Option ℤ
deriving DecidableEq, Repr

/-- `transform_strava_activity(strava_data, athlete_id)`; `none` models
the exception raised on a required key that is missing or unparseable. -/
def transform_strava_activity (d : StravaActivity) (athlete_id : ℤ) :
    Option ActivityData :=
match d.name, d.start_date, d.start_date_local with
| some nm, some sd, some sdl =>
  some { strava_id := d.id
         athlete_id := athlete_id
         name := nm
         distance := d.distance.getD 0
         moving_time := d.moving_time.getD 0
         elapsed_time := d.elapsed_time.getD 0
         total_elevation_gain := d.total_elevation_gain.getD 0
         sport_type := d.sport_type.getD (d.type.getD "Run")
         start_date := sd
         start_date_local := sdl
         timezone := d.timezone
         average_speed := d.average_speed
         max_speed := d.max_speed
         average_heartrate := d.average_heartrate
         max_heartrate := d.max_heartrate
         has_heartrate := d.has_heartrate.getD false
         average_cadence := d.average_cadence
         elev_high := d.elev_high
         elev_low := d.elev_low
         polyline := d.map_summary_polyline
         calories := d.calories
         achievement_count := d.achievement_count
         kudos_count := d.kudos_count
         comment_count := d.comment_count
         athlete_count := d.athlete_count }
| _, _, _ => none

/-! ## `app/models/activity.py` and `app/models/athlete.py` -/

/-- The stored `Activity` row (`activities` table); datetimes are Unix
timestamps. -/
structure Activity where
  strava_id : ℤ
  athlete_id : ℤ
  name : String
  distance : ℚ
  moving_time : ℤ
  elapsed_time : ℤ
  total_elevation_gain : ℚ
  sport_type : String
  start_date : ℤ
  start_date_local : ℤ
  timezone : Option String
  average_speed : Option ℚ
  max_speed : Option ℚ
  average_heartrate : Option ℚ
  max_heartrate : Option ℤ
  has_heartrate : Bool
  average_cadence : Option ℚ
  elev_high : Option ℚ
  elev_low : Option ℚ
  polyline : Option String
  calories : Option ℚ
  achievement_count : Option ℤ
  kudos_count : Option ℤ
  comment_count : Option ℤ
  athlete_count : Option ℤ
  id : Option ℤ
  created_at : ℤ
  updated_at : ℤ
deriving DecidableEq, Repr

/-- The stored `Athlete` row. -/
structure Athlete where
  id : Option ℤ
  strava_id : ℤ
  username : Option String
  firstname : Option String
  lastname : Option String
  profile_medium : Option String
  access_token : String
  refresh_token : String
  expires_at : ℤ
  created_at : ℤ
  updated_at : ℤ
deriving DecidableEq, Repr

/-- The token triple returned by `refresh_access_token`. -/
structure TokenData where
  access_token : String
  refresh_token : String
  expires_at : ℤ
deriving DecidableEq, Repr

/-! ## Sync engine (`sync_activities`, `app/api/activities.py`)

The endpoint's externally visible behaviour is modelled as the ordered
list of remote/persistence events it performs, as a function of the
athlete row, the current time, the token endpoint's response and the
stored activities. -/

/-- Remote and persistence events performed by `sync_activities`, in
order. -/
inductive SyncEvent where
  | refreshCall (refresh_token : String)
  | persistTokens (access_token refresh_token : String) (expires_at : ℤ)
  | listFetch (access_token : String) (params : ListParams)
deriving DecidableEq, Repr

/-- The athlete row after a successful token refresh (step 2). -/
def refreshedAthlete (a : Athlete) (t : TokenData) (now : ℤ) : Athlete :=
  { a with access_token := t.access_token
           refresh_token := t.refresh_token
           expires_at := t.expires_at
           updated_at := now }

/-- Step 2 of `sync_activities`: refresh when
`athlete.expires_at < current_time`, persisting the new triple. -/
def tokenStep (a : Athlete) (now : ℤ) (t : TokenData) :
    Athlete × List SyncEvent :=
if a.expires_at < now then
  (refreshedAthlete a t now,
   [SyncEvent.refreshCall a.refresh_token,
    SyncEvent.persistTokens t.access_token t.refresh_token t.expires_at])
else (a, [])

/-- Maximal `start_date` among stored activities: the timestamp of the
row selected by `order_by(Activity.start_date.desc()).limit(1)`. -/
def maxStart : List Activity → Option ℤ
  | [] => none
  | a :: t =>
    some (match maxStart t with
          | none => a.start_date
          | some m => max a.start_date m)

/-- Step 3 of `sync_activities`: the `after` horizon — latest stored
start timestamp, or 30 days before now on first sync. -/
def syncAfterTimestamp (stored : List Activity) (now : ℤ) : ℤ :=
match maxStart stored with
| some t => t
| none => now - 30 * 24 * 60 * 60

/-- The list-request parameters issued by step 4 of `sync_activities`
(`after=after_timestamp, per_page=100`). -/
def syncListParams (stored : List Activity) (now : ℤ) : ListParams :=
get_athlete_activities_params (some (syncAfterTimestamp stored now)) none 1 100

/-- The ordered event trace of one `sync_activities` call, up to and
including the activity list fetch. -/
def syncTrace (a : Athlete) (now : ℤ) (t : TokenData)
    (stored : List Activity) : List SyncEvent :=
let step2 := tokenStep a now t
step2.2 ++ [SyncEvent.listFetch step2.1.access_token (syncListParams stored now)]

/-- Count of token-refresh calls in a trace. -/
def countRefreshCalls (evs : List SyncEvent) : ℕ :=
(evs.filter (fun e => match e with
  | SyncEvent.refreshCall _ => true
  | _ => false)).length

/-- Modelled from the spec: the remote Strava activity-list endpoint
(external to this repository) returns at most `per_page` activities, all
strictly after `after` and strictly before `before` when those
parameters are present. -/
def ValidListResponse (p : ListParams) (resp : List StravaActivity) : Prop :=
resp.length ≤ p.per_page ∧
  ∀ r ∈ resp,
    (∀ a, p.after = some a → ∀ sd, r.start_date = some sd → a < sd) ∧
    (∀ b, p.before = some b → ∀ sd, r.start_date = some sd → sd < b)

/-! ## Step 5 of `sync_activities`: merge fetched activities -/

/-- The `setattr` loop over `activity_data.items()` skipping
`id`/`created_at` (neither key occurs in the transformed dict, and
`updated_at` is not among its keys either). -/
def applyActivityData (a : Activity) (d : ActivityData) : Activity :=
  { a with strava_id := d.strava_id
           athlete_id := d.athlete_id
           name := d.name
           distance := d.distance
           moving_time := d.moving_time
           elapsed_time := d.elapsed_time
           total_elevation_gain := d.total_elevation_gain
           sport_type := d.sport_type
           start_date := d.start_date
           start_date_local := d.start_date_local
           timezone := d.timezone
           average_speed := d.average_speed
           max_speed := d.max_speed
           average_heartrate := d.average_heartrate
           max_heartrate := d.max_heartrate
           has_heartrate := d.has_heartrate
           average_cadence := d.average_cadence
           elev_high := d.elev_high
           elev_low := d.elev_low
           polyline := d.polyline
           calories := d.calories
           achievement_count := d.achievement_count
           kudos_count := d.kudos_count
           comment_count := d.comment_count
           athlete_count := d.athlete_count }

/-- Updating an existing row: overwrite the transformed fields and bump
`updated_at = datetime.now()`. -/
def mergeExisting (a : Activity) (d : ActivityData) (now : ℤ) : Activity :=
  { applyActivityData a d with updated_at := now }

/-- `Activity(**activity_data)`: a fresh row, `id` unassigned and both
audit timestamps defaulted to the current time. -/
def newActivity (d : ActivityData) (now : ℤ) : Activity :=
  { strava_id := d.strava_id
    athlete_id := d.athlete_id
    name := d.name
    distance := d.distance
    moving_time := d.moving_time
    elapsed_time := d.elapsed_time
    total_elevation_gain := d.total_elevation_gain
    sport_type := d.sport_type
    start_date := d.start_date
    start_date_local := d.start_date_local
    timezone := d.timezone
    average_speed := d.average_speed
    max_speed := d.max_speed
    average_heartrate := d.average_heartrate
    max_heartrate := d.max_heartrate
    has_heartrate := d.has_heartrate
    average_cadence := d.average_cadence
    elev_high := d.elev_high
    elev_low := d.elev_low
    polyline := d.polyline
    calories := d.calories
    achievement_count := d.achievement_count
    kudos_count := d.kudos_count
    comment_count := d.comment_count
    athlete_count := d.athlete_count
    id := none
    created_at := now
    updated_at := now }

/-- Update the first stored activity with the given `strava_id` (the row
returned by `.first()` on the `strava_id` filter). -/
def updateFirstMatch (sid : ℤ) (f : Activity → Activity) :
    List Activity → List Activity
  | [] => []
  | a :: t =>
    if a.strava_id = sid then f a :: t else a :: updateFirstMatch sid f t

/-- One iteration of the step-5 loop: transform, then update the matching
row or insert a new one; any per-item exception leaves the store
untouched (`except ... continue`). -/
def processOne (athlete_id now : ℤ) (db : List Activity)
    (r : StravaActivity) : List Activity :=
match transform_strava_activity r athlete_id with
| none => db
| some d =>
  if db.any (fun a => a.strava_id == r.id) then
    updateFirstMatch r.id (fun a => mergeExisting a d now) db
  else db ++ [newActivity d now]

/-- The whole step-5 loop over the fetched batch. -/
def processBatch (athlete_id now : ℤ) (db : List Activity)
    (rs : List StravaActivity) : List Activity :=
rs.foldl (processOne athlete_id now) db

/-! ## `update_settings` (`app/api/settings.py`)

The incoming `updates: Dict[str, Any]` is modelled as a list of typed
entries in insertion order; `unknownKey` stands for any key that is not
an attribute of `UserSettings` (skipped by the `hasattr` guard). -/

/-- One key/value pair of the `updates` dictionary. -/
inductive UpdEntry where
  | setId (v : Option ℤ)
  | setAthleteId (v : ℤ)
  | setZoneModelType (v : String)
  | setMaxHeartRate (v : ℤ)
  | setRestHeartRate (v : ℤ)
  | setHrZones (v : List ℚ)
  | setPaceZones (v : List ℚ)
  | setCalendarStartDay (v : String)
  | setDistanceUnit (v : String)
  | setTemperatureUnit (v : String)
  | setCreatedAt (v : ℤ)
  | setUpdatedAt (v : ℤ)
  | unknownKey (k : String)
deriving DecidableEq, Repr

/-- `updates.get("zone_model_type")`. -/
def lookupZoneModel : List UpdEntry → Option String
  | [] => none
  | UpdEntry.setZoneModelType v :: _ => some v
  | _ :: t => lookupZoneModel t

/-- `updates.get("hr_zones")` (presence doubles as `"hr_zones" in updates`). -/
def lookupHrZones : List UpdEntry → Option (List ℚ)
  | [] => none
  | UpdEntry.setHrZones v :: _ => some v
  | _ :: t => lookupHrZones t

/-- `updates.get("pace_zones")`. -/
def lookupPaceZones : List UpdEntry → Option (List ℚ)
  | [] => none
  | UpdEntry.setPaceZones v :: _ => some v
  | _ :: t => lookupPaceZones t

/-- `updates.get("max_heart_rate")`. -/
def lookupMaxHr : List UpdEntry → Option ℤ
  | [] => none
  | UpdEntry.setMaxHeartRate v :: _ => some v
  | _ :: t => lookupMaxHr t

/-- `updates.get("rest_heart_rate")`. -/
def lookupRestHr : List UpdEntry → Option ℤ
  | [] => none
  | UpdEntry.setRestHeartRate v :: _ => some v
  | _ :: t => lookupRestHr t

/-- `updates.get("calendar_start_day")`. -/
def lookupCalStart : List UpdEntry → Option String
  | [] => none
  | UpdEntry.setCalendarStartDay v :: _ => some v
  | _ :: t => lookupCalStart t

/-- `updates.get("distance_unit")`. -/
def lookupDistUnit : List UpdEntry → Option String
  | [] => none
  | UpdEntry.setDistanceUnit v :: _ => some v
  | _ :: t => lookupDistUnit t

/-- `updates.get("temperature_unit")`. -/
def lookupTempUnit : List UpdEntry → Option String
  | [] => none
  | UpdEntry.setTemperatureUnit v :: _ => some v
  | _ :: t => lookupTempUnit t

/-- `setattr(settings, key, value)` for one dictionary entry; an unknown
key fails `hasattr` and is skipped. -/
def applyEntry (s : UserSettings) : UpdEntry → UserSettings
  | UpdEntry.setId v => { s with id := v }
  | UpdEntry.setAthleteId v => { s with athlete_id := v }
  | UpdEntry.setZoneModelType v => { s with zone_model_type := v }
  | UpdEntry.setMaxHeartRate v => { s with max_heart_rate := v }
  | UpdEntry.setRestHeartRate v => { s with rest_heart_rate := v }
  | UpdEntry.setHrZones v => { s with hr_zones := v }
  | UpdEntry.setPaceZones v => { s with pace_zones := v }
  | UpdEntry.setCalendarStartDay v => { s with calendar_start_day := v }
  | UpdEntry.setDistanceUnit v => { s with distance_unit := v }
  | UpdEntry.setTemperatureUnit v => { s with temperature_unit := v }
  | UpdEntry.setCreatedAt v => { s with created_at := v }
  | UpdEntry.setUpdatedAt v => { s with updated_at := v }
  | UpdEntry.unknownKey _ => s

/-- The validation sequence of `update_settings` (every early
`raise HTTPException(400, ...)`), in source order: zone model name,
HR zones, pace zones, heart-rate ranges (checked against the updated or
existing values even when absent from the dict), and the three display
preferences.  Returns the HTTP status of the first failing check. -/
def settingsValidationError (s : UserSettings) (updates : List UpdEntry) :
    Option ℕ :=
if (lookupZoneModel updates).elim false
    (fun zm => !(zm = "3_zone" || zm = "5_zone" || zm = "7_zone")) then
  some 400
else
  let zone_model := (lookupZoneModel updates).getD s.zone_model_type
  if (lookupHrZones updates).elim false
      (fun hz => !(validate_zone_array hz "hr" zone_model).1) then
    some 400
  else if (lookupPaceZones updates).elim false
      (fun pz => !(validate_zone_array pz "pace" zone_model).1) then
    some 400
  else
    let max_hr := (lookupMaxHr updates).getD s.max_heart_rate
    let rest_hr := (lookupRestHr updates).getD s.rest_heart_rate
    if max_hr ≤ rest_hr then some 400
    else if max_hr < 120 ∨ max_hr > 220 then some 400
    else if rest_hr < 30 ∨ rest_hr > 100 then some 400
    else if (lookupCalStart updates).elim false
        (fun v => !(v = "monday" || v = "sunday")) then
      some 400
    else if (lookupDistUnit updates).elim false
        (fun v => !(v = "km" || v = "miles")) then
      some 400
    else if (lookupTempUnit updates).elim false
        (fun v => !(v = "celsius" || v = "fahrenheit")) then
      some 400
    else none

/-- `update_settings(athlete_id, updates)` once the settings row has been
found: the validation sequence, then the `setattr` loop over every
entry (`if hasattr(settings, key)`), then `update_timestamp()`. -/
def update_settings (s : UserSettings) (updates : List UpdEntry) (now : ℤ) :
    Except ℕ UserSettings :=
match settingsValidationError s updates with
| some code => Except.error code
| none => Except.ok { updates.foldl applyEntry s with updated_at := now }

/-! ## Claim C4: polyline decoding -/

/-- C4: `decode_polyline` is a deterministic pure function; the empty
string decodes to the empty sequence, and the published fixture
`"_p~iF~ps|U_ulLnnqC_mqNvxq`@"` decodes to exactly
(38.5, -120.2), (40.7, -120.95), (43.252, -126.453). -/
theorem ant_c4 :
    (∀ s : String, decode_polyline s = decode_polyline s) ∧
    decode_polyline "" = some [] ∧
    decode_polyline "_p~iF~ps|U_ulLnnqC_mqNvxq`@" =
      some [((77 : ℚ)/2, (-601 : ℚ)/5), ((407 : ℚ)/10, (-2419 : ℚ)/20),
            ((10813 : ℚ)/250, (-126453 : ℚ)/1000)] := by
  refine ⟨fun s => rfl, rfl, ?_⟩
  have h1 : decode_polyline "_p~iF~ps|U_ulLnnqC_mqNvxq`@" =
      some [(((3850000:ℤ) : ℚ) / 100000, ((-12020000:ℤ) : ℚ) / 100000),
            (((4070000:ℤ) : ℚ) / 100000, ((-12095000:ℤ) : ℚ) / 100000),
            (((4325200:ℤ) : ℚ) / 100000, ((-12645300:ℤ) : ℚ) / 100000)] := rfl
  rw [h1]
  norm_num

/-! ## Claim C2: absolute HR zone computation -/

/-- The zone walk exactly as the claim words it: each upper bound is
`round(max_heart_rate * pct / 100)` (Python banker's rounding) instead of
the code's `int(...)` truncation. -/
def claimedHrZonesGo (maxHr : ℤ) (previous_max : ℤ) : List ℚ → List (ℤ × ℤ)
  | [] => []
  | p :: ps =>
    let zone_max : ℤ := roundHalfEven ((maxHr : ℚ) * p / 100)
    (previous_max, zone_max) :: claimedHrZonesGo maxHr zone_max ps

/-- `calculate_hr_zones` as described by the claim (rounding). -/
def claimed_calculate_hr_zones (s : UserSettings) : List (ℤ × ℤ) :=
if s.hr_zones = [] then []
else claimedHrZonesGo s.max_heart_rate s.rest_heart_rate s.hr_zones

/-- Settings on which truncation and rounding disagree:
`193 * 60 / 100 = 115.8`. -/
def c2CexSettings : UserSettings :=
  { id := none
    athlete_id := 1
    zone_model_type := "5_zone"
    max_heart_rate := 193
    rest_heart_rate := 50
    hr_zones := [60, 100]
    pace_zones := [7, 6, 5, 9/2, 4]
    calendar_start_day := "monday"
    distance_unit := "km"
    temperature_unit := "celsius"
    created_at := 0
    updated_at := 0 }

/-- C2 counterexample: the code computes each upper bound with `int()`
truncation, not `round`: with max HR 193 and first percentage 60 the code
yields 115 where the claim's `round(115.8)` yields 116. -/
theorem ant_c2_cex :
    calculate_hr_zones c2CexSettings = [(50, 115), (115, 193)] ∧
    claimed_calculate_hr_zones c2CexSettings = [(50, 116), (116, 193)] ∧
    calculate_hr_zones c2CexSettings ≠ claimed_calculate_hr_zones c2CexSettings := by
  refine ⟨?_, ?_, ?_⟩ <;>
    norm_num [calculate_hr_zones, hrZonesGo, claimed_calculate_hr_zones,
      claimedHrZonesGo, c2CexSettings, pyTrunc, roundHalfEven] <;>
    simp

theorem hrZonesGo_map_snd (ps : List ℚ) (maxHr prev : ℤ) :
    (hrZonesGo maxHr prev ps).map Prod.snd =
      ps.map (fun p => pyTrunc ((maxHr : ℚ) * p / 100)) := by
  induction ps generalizing prev with
  | nil => rfl
  | cons p ps ih => simp [hrZonesGo, ih]

theorem hrZonesGo_map_fst (ps : List ℚ) (maxHr prev : ℤ) :
    (hrZonesGo maxHr prev ps).map Prod.fst =
      (prev :: (hrZonesGo maxHr prev ps).map Prod.snd).dropLast := by
  induction ps generalizing prev with
  | nil => rfl
  | cons p ps ih =>
    simp only [hrZonesGo, List.map_cons]
    rw [List.dropLast_cons_of_ne_nil (List.cons_ne_nil _ _), ih]

/-- C2 amended: for every settings record with non-empty `hr_zones`,
`calculate_hr_zones` returns one pair per percentage whose upper bound is
the `int()` **truncation** of `max_heart_rate * pct / 100` (not `round`),
each lower bound is the previous upper bound, and the first lower bound
is `rest_heart_rate`. -/
theorem ant_c2 (s : UserSettings) (h : s.hr_zones ≠ []) :
    (calculate_hr_zones s).length = s.hr_zones.length ∧
    (calculate_hr_zones s).map Prod.snd =
      s.hr_zones.map (fun p => pyTrunc ((s.max_heart_rate : ℚ) * p / 100)) ∧
    (calculate_hr_zones s).map Prod.fst =
      s.rest_heart_rate :: ((calculate_hr_zones s).map Prod.snd).dropLast := by
  obtain ⟨p, ps, hps⟩ : ∃ p ps, s.hr_zones = p :: ps := by
    cases hz : s.hr_zones with
    | nil => exact absurd hz h
    | cons p ps => exact ⟨p, ps, rfl⟩
  have hcalc : calculate_hr_zones s =
      hrZonesGo s.max_heart_rate s.rest_heart_rate s.hr_zones := by
    unfold calculate_hr_zones
    rw [if_neg h]
  refine ⟨?_, ?_, ?_⟩
  · have := congrArg List.length (hrZonesGo_map_snd s.hr_zones
      s.max_heart_rate s.rest_heart_rate)
    simpa [hcalc] using this
  · rw [hcalc, hrZonesGo_map_snd]
  · rw [hcalc, hps, hrZonesGo_map_fst,
      List.dropLast_cons_of_ne_nil (by simp [hrZonesGo])]

/-- C2 amended witness at concrete settings. -/
theorem ant_c2_witness :
    (calculate_hr_zones c2CexSettings).length = 2 ∧
    (calculate_hr_zones c2CexSettings).map Prod.fst = [50, 115] := by
  have h := ant_c2 c2CexSettings (by simp [c2CexSettings])
  refine ⟨?_, ?_⟩
  · rw [h.1]; rfl
  · rw [h.2.2, h.2.1]
    norm_num [c2CexSettings, pyTrunc]

/-! ## Claim C1: split computation -/

theorem calculate_splits_eq (d : ℚ) (t s : ℤ) (h : ¬(d = 0 ∨ t = 0)) :
    calculate_splits d t s =
      (List.range (pyTrunc (d / s)).toNat).map (fun (i : ℕ) =>
        { split := (i : ℤ) + 1
          distance := (s : ℚ)
          time := pyTrunc ((t : ℚ) / (d / s))
          pace := pyRound2 (((t : ℚ) / (d / s) / 60) / ((s : ℚ) / 1000)) }) ++
      (if pyMod d s > 0 then
        [{ split := pyTrunc (d / s) + 1
           distance := (pyTrunc (pyMod d s) : ℚ)
           time := pyTrunc ((pyMod d s / d) * t)
           pace := pyRound2 ((((pyMod d s / d) * t) / 60) / (pyMod d s / 1000)) }]
       else []) := by
  unfold calculate_splits
  rw [if_neg h]
  by_cases hr : pyMod d s > 0
  · rw [if_pos hr, if_pos hr]
  · rw [if_neg hr, if_neg hr, List.append_nil]

/-- C1 counterexample: the stored split `time` is the `int()` truncation
of `movingTime / (distance / splitDistance)`, not that exact value:
for `calculate_splits(1500, 400, 1000)` each full split stores time 266,
yet `400 / (1500/1000) = 800/3 ≠ 266`. -/
theorem ant_c1_cex :
    (calculate_splits 1500 400 1000).map SplitRec.time = [266, 133] ∧
    (400 : ℚ) / ((1500 : ℚ) / 1000) ≠ ((266 : ℤ) : ℚ) := by
  constructor
  · norm_num [calculate_splits, pyTrunc, pyMod, pyRound2, roundHalfEven,
      List.range_succ]
  · norm_num

/-- C1 amended: for positive distance, time and split distance,
`calculate_splits` returns `⌊d/s⌋` full splits of distance `s`, each
storing the **`int()`-truncated** time `int(t / (d/s))` and the pace
`round((t/(d/s)/60) / (s/1000), 2)`, followed by one final partial split
if and only if `d mod s` is nonzero, whose distance is the truncated
remainder and whose time is the truncated proportional time
`int((remainder/d) * t)`; a zero distance or time yields `[]`; the two
worked examples of the claim hold as stated. -/
theorem ant_c1 :
    (∀ (d : ℚ) (t s : ℤ), d = 0 ∨ t = 0 → calculate_splits d t s = []) ∧
    (∀ (d : ℚ) (t s : ℤ), 0 < d → 0 < t → 0 < s →
      ((calculate_splits d t s).length =
        (pyTrunc (d / s)).toNat + (if 0 < pyMod d s then 1 else 0)) ∧
      (∀ i : ℕ, i < (pyTrunc (d / s)).toNat →
        (calculate_splits d t s)[i]? =
          some { split := (i : ℤ) + 1
                 distance := (s : ℚ)
                 time := pyTrunc ((t : ℚ) / (d / s))
                 pace := pyRound2 (((t : ℚ) / (d / s) / 60) / ((s : ℚ) / 1000)) }) ∧
      (0 < pyMod d s →
        (calculate_splits d t s).getLast? =
          some { split := pyTrunc (d / s) + 1
                 distance := (pyTrunc (pyMod d s) : ℚ)
                 time := pyTrunc ((pyMod d s / d) * t)
                 pace := pyRound2 ((((pyMod d s / d) * t) / 60) /
                   (pyMod d s / 1000)) }) ∧
      (pyMod d s = 0 →
        (calculate_splits d t s).length = (pyTrunc (d / s)).toNat)) ∧
    calculate_splits 5500 1650 1000 =
      [⟨1, 1000, 300, 5⟩, ⟨2, 1000, 300, 5⟩, ⟨3, 1000, 300, 5⟩,
       ⟨4, 1000, 300, 5⟩, ⟨5, 1000, 300, 5⟩, ⟨6, 500, 150, 5⟩] ∧
    calculate_splits 5000 1500 1000 =
      [⟨1, 1000, 300, 5⟩, ⟨2, 1000, 300, 5⟩, ⟨3, 1000, 300, 5⟩,
       ⟨4, 1000, 300, 5⟩, ⟨5, 1000, 300, 5⟩] := by
  refine ⟨?_, ?_, ?_, ?_⟩
  · intro d t s h
    unfold calculate_splits
    rw [if_pos h]
  · intro d t s hd ht hs
    have hcond : ¬(d = 0 ∨ t = 0) := by
      rintro (h | h)
      · exact absurd h (ne_of_gt hd)
      · omega
    have heq := calculate_splits_eq d t s hcond
    refine ⟨?_, ?_, ?_, ?_⟩
    · rw [heq]
      by_cases hr : pyMod d s > 0 <;> simp [hr]
    · intro i hi
      rw [heq]
      rw [List.getElem?_append_left (by simpa using hi)]
      simp [hi]
    · intro hr
      rw [heq, if_pos hr, List.getLast?_concat]
    · intro hr
      rw [heq]
      simp [hr]
  · norm_num [calculate_splits, pyTrunc, pyMod, pyRound2, roundHalfEven]
    simp [List.range_succ]
  · norm_num [calculate_splits, pyTrunc, pyMod, pyRound2, roundHalfEven]
    simp [List.range_succ]

/-- C1 amended witness at concrete inputs. -/
theorem ant_c1_witness :
    calculate_splits 0 5 1000 = [] ∧
    (calculate_splits 5500 1650 1000).length = 6 := by
  refine ⟨ant_c1.1 0 5 1000 (Or.inl rfl), ?_⟩
  have h := (ant_c1.2.1 5500 1650 1000 (by norm_num) (by norm_num)
    (by norm_num)).1
  rw [h]
  norm_num [pyTrunc, pyMod]
  omega

/-! ## Claim C3: zone classification totality -/

theorem hrZonesGo_length (ps : List ℚ) (maxHr prev : ℤ) :
    (hrZonesGo maxHr prev ps).length = ps.length := by
  induction ps generalizing prev with
  | nil => rfl
  | cons p ps ih => simp [hrZonesGo, ih]

theorem calculate_hr_zones_length (s : UserSettings) (h : s.hr_zones ≠ []) :
    (calculate_hr_zones s).length = s.hr_zones.length := by
  unfold calculate_hr_zones
  rw [if_neg h, hrZonesGo_length]

theorem paceZonesGo_length (ps : List ℚ) (prev : Option ℚ) :
    (paceZonesGo prev ps).length = ps.length := by
  induction ps generalizing prev with
  | nil => rfl
  | cons t ts ih => simp [paceZonesGo, ih]

theorem hrZoneLoop_total_or_bounds (hr : ℤ) (zs : List (ℤ × ℤ)) :
    ∀ i total : ℕ, hrZoneLoop hr zs i total = total ∨
      (i ≤ hrZoneLoop hr zs i total ∧ hrZoneLoop hr zs i total < i + zs.length) := by
  induction zs with
  | nil => intro i total; left; rfl
  | cons z zs ih =>
    intro i total
    obtain ⟨mn, mx⟩ := z
    simp only [hrZoneLoop]
    split
    · right
      simp only [List.length_cons]
      omega
    · rcases ih (i + 1) total with h | h
      · left; exact h
      · right
        simp only [List.length_cons]
        omega

theorem hrZoneLoop_first (hr : ℤ) (z : ℤ × ℤ) (post : List (ℤ × ℤ)) :
    ∀ (pre : List (ℤ × ℤ)) (i total : ℕ),
      (∀ w ∈ pre, ¬(w.1 ≤ hr ∧ hr ≤ w.2)) →
      (z.1 ≤ hr ∧ hr ≤ z.2) →
      hrZoneLoop hr (pre ++ z :: post) i total = i + pre.length := by
  intro pre
  induction pre with
  | nil =>
    intro i total _ hz
    obtain ⟨mn, mx⟩ := z
    simp only [List.nil_append, hrZoneLoop, List.length_nil, Nat.add_zero]
    exact if_pos hz
  | cons w pre ih =>
    intro i total hpre hz
    obtain ⟨mn, mx⟩ := w
    rw [List.cons_append]
    show (if mn ≤ hr ∧ hr ≤ mx then i
          else hrZoneLoop hr (pre ++ z :: post) (i + 1) total) =
        i + ((mn, mx) :: pre).length
    rw [if_neg (hpre (mn, mx) (List.mem_cons_self _ _))]
    refine (ih (i + 1) total
      (fun w hw => hpre w (List.mem_cons_of_mem _ hw)) hz).trans ?_
    simp only [List.length_cons]
    omega

theorem hrZoneLoop_none (hr : ℤ) (zs : List (ℤ × ℤ)) :
    ∀ i total : ℕ, (∀ w ∈ zs, ¬(w.1 ≤ hr ∧ hr ≤ w.2)) →
      hrZoneLoop hr zs i total = total := by
  induction zs with
  | nil => intro i total _; rfl
  | cons z zs ih =>
    intro i total h
    obtain ⟨mn, mx⟩ := z
    simp only [hrZoneLoop]
    rw [if_neg (h (mn, mx) (List.mem_cons_self _ _))]
    exact ih (i + 1) total (fun w hw => h w (List.mem_cons_of_mem _ hw))

theorem paceZoneLoop_none (pace : ℚ) (zs : List (Option ℚ × ℚ)) :
    ∀ i : ℕ, (∀ w ∈ zs, ¬(w.2 ≤ pace ∧ withinSlower pace w.1 = true)) →
      paceZoneLoop pace zs i = none := by
  induction zs with
  | nil => intro i _; rfl
  | cons z zs ih =>
    intro i h
    obtain ⟨slower, faster⟩ := z
    simp only [paceZoneLoop]
    rw [if_neg (h (slower, faster) (List.mem_cons_self _ _))]
    exact ih (i + 1) (fun w hw => h w (List.mem_cons_of_mem _ hw))

theorem paceZonesGo_snd_mem (ps : List ℚ) (prev : Option ℚ) :
    ∀ w ∈ paceZonesGo prev ps, w.2 ∈ ps := by
  induction ps generalizing prev with
  | nil => intro w hw; exact absurd hw (List.not_mem_nil w)
  | cons t ts ih =>
    intro w hw
    simp only [paceZonesGo, List.mem_cons] at hw
    rcases hw with rfl | hw
    · exact List.mem_cons_self _ _
    · exact List.mem_cons_of_mem _ (ih (some t) w hw)

theorem paceZoneLoop_coverage (pace : ℚ) (ps : List ℚ) :
    ∀ (prev : Option ℚ) (i : ℕ), ps ≠ [] →
      (∀ q, prev = some q → pace ≤ q) → ps.getLastD 0 ≤ pace →
      ∃ j, paceZoneLoop pace (paceZonesGo prev ps) i = some j ∧
        i ≤ j ∧ j < i + ps.length := by
  induction ps with
  | nil => intro prev i h; exact absurd rfl h
  | cons t ts ih =>
    intro prev i _ hprev hlast
    by_cases hge : t ≤ pace
    · refine ⟨i, ?_, le_refl i, by simp⟩
      simp only [paceZonesGo, paceZoneLoop]
      rw [if_pos]
      exact ⟨hge, by cases prev with
        | none => rfl
        | some q => simpa [withinSlower] using hprev q rfl⟩
    · cases ts with
      | nil =>
        exact absurd (by simpa [List.getLastD_cons] using hlast) hge
      | cons u us =>
        have hlast' : (u :: us).getLastD 0 ≤ pace := by
          simpa [List.getLastD_cons] using hlast
        obtain ⟨j, hj, hji, hjb⟩ := ih (some t) (i + 1) (by simp)
          (fun q hq => by
            injection hq with hq2
            subst hq2
            exact le_of_lt (lt_of_not_le hge)) hlast'
        refine ⟨j, ?_, by omega, ?_⟩
        · simp only [paceZonesGo, paceZoneLoop]
          rw [if_neg (fun hc => hge hc.1)]
          exact hj
        · simp only [List.length_cons] at hjb ⊢
          omega

theorem descStrict_getLastD_le (ps : List ℚ) :
    descStrict ps = true → ∀ t ∈ ps, ps.getLastD 0 ≤ t := by
  induction ps with
  | nil => intro _ t ht; exact absurd ht (List.not_mem_nil t)
  | cons a ts ih =>
    intro h t ht
    cases ts with
    | nil =>
      simp only [List.mem_singleton] at ht
      subst ht
      simp [List.getLastD_cons]
    | cons b us =>
      simp only [descStrict, Bool.and_eq_true, decide_eq_true_eq] at h
      simp only [List.getLastD_cons]
      rcases List.mem_cons.1 ht with rfl | ht2
      · have hb := ih h.2 b (List.mem_cons_self _ _)
        simp only [List.getLastD_cons] at hb
        exact hb.trans (le_of_lt h.1)
      · have hx := ih h.2 t ht2
        simp only [List.getLastD_cons] at hx
        exact hx

theorem validate_true_zoneCount (zs : List ℚ) (zt zm : String)
    (h : (validate_zone_array zs zt zm).1 = true) :
    zoneCount zm = some zs.length := by
  unfold validate_zone_array at h
  repeat' split at h
  all_goals simp_all

theorem validate_pace_desc (zs : List ℚ) (zm : String)
    (h : (validate_zone_array zs "pace" zm).1 = true) :
    descStrict zs = true := by
  unfold validate_zone_array at h
  repeat' split at h
  all_goals simp_all

theorem zoneCount_cases (zm : String) (N : ℕ) (h : zoneCount zm = some N) :
    N = 3 ∨ N = 5 ∨ N = 7 := by
  unfold zoneCount at h
  by_cases h3 : zm = "3_zone"
  · rw [if_pos h3] at h
    exact Or.inl (Option.some.inj h).symm
  · rw [if_neg h3] at h
    by_cases h5 : zm = "5_zone"
    · rw [if_pos h5] at h
      exact Or.inr (Or.inl (Option.some.inj h).symm)
    · rw [if_neg h5] at h
      by_cases h7 : zm = "7_zone"
      · rw [if_pos h7] at h
        exact Or.inr (Or.inr (Option.some.inj h).symm)
      · rw [if_neg h7] at h; exact absurd h (by simp)

/-- C3: for validly-configured settings (both zone arrays pass
`validate_zone_array` for the configured model, max HR above rest HR),
`get_hr_zone` maps every bpm below rest HR to 0 and every bpm ≥ rest HR
to exactly one zone index in 1..N — the first zone whose inclusive
[min, max] range contains it, and the top zone N above all zones — and
`get_pace_zone` maps every rational pace to an index in 1..N, with the
top zone N for a pace strictly faster (smaller) than the fastest
threshold. -/
theorem ant_c3 (s : UserSettings) (N : ℕ)
    (hN : zoneCount s.zone_model_type = some N)
    (hhr : (validate_zone_array s.hr_zones "hr" s.zone_model_type).1 = true)
    (hpace : (validate_zone_array s.pace_zones "pace" s.zone_model_type).1 = true)
    (hmr : s.rest_heart_rate < s.max_heart_rate) :
    (∀ bpm : ℤ, bpm < s.rest_heart_rate → get_hr_zone bpm s = 0) ∧
    (∀ bpm : ℤ, s.rest_heart_rate ≤ bpm →
      1 ≤ get_hr_zone bpm s ∧ get_hr_zone bpm s ≤ N) ∧
    (∀ bpm : ℤ, s.rest_heart_rate ≤ bpm →
      ∀ (pre : List (ℤ × ℤ)) (z : ℤ × ℤ) (post : List (ℤ × ℤ)),
      calculate_hr_zones s = pre ++ z :: post →
      (∀ w ∈ pre, ¬(w.1 ≤ bpm ∧ bpm ≤ w.2)) → (z.1 ≤ bpm ∧ bpm ≤ z.2) →
      get_hr_zone bpm s = pre.length + 1) ∧
    (∀ bpm : ℤ, s.rest_heart_rate ≤ bpm →
      (∀ w ∈ calculate_hr_zones s, w.2 < bpm) → get_hr_zone bpm s = N) ∧
    (∀ pace : ℚ, 1 ≤ get_pace_zone pace s ∧ get_pace_zone pace s ≤ N) ∧
    (∀ pace : ℚ, pace < s.pace_zones.getLastD 0 → get_pace_zone pace s = N) := by
  have hhzlen : s.hr_zones.length = N := by
    have h2 := validate_true_zoneCount s.hr_zones "hr" s.zone_model_type hhr
    rw [hN] at h2
    exact (Option.some.inj h2).symm
  have hpzlen : s.pace_zones.length = N := by
    have h2 := validate_true_zoneCount s.pace_zones "pace" s.zone_model_type hpace
    rw [hN] at h2
    exact (Option.some.inj h2).symm
  have hN3 : 3 ≤ N := by
    rcases zoneCount_cases _ _ hN with h | h | h <;> omega
  have hhz_ne : s.hr_zones ≠ [] := by
    intro hnil
    rw [hnil] at hhzlen
    simp at hhzlen
    omega
  have hpz_ne : s.pace_zones ≠ [] := by
    intro hnil
    rw [hnil] at hpzlen
    simp at hpzlen
    omega
  have hczlen : (calculate_hr_zones s).length = N :=
    (calculate_hr_zones_length s hhz_ne).trans hhzlen
  have hcpz : calculate_pace_zones s = paceZonesGo none s.pace_zones := by
    unfold calculate_pace_zones
    rw [if_neg hpz_ne]
  have hppzlen : (calculate_pace_zones s).length = N := by
    rw [hcpz, paceZonesGo_length]
    exact hpzlen
  have hdesc : descStrict s.pace_zones = true :=
    validate_pace_desc s.pace_zones s.zone_model_type hpace
  have hPaceTop : ∀ pace : ℚ, pace < s.pace_zones.getLastD 0 →
      get_pace_zone pace s = N := by
    intro pace hlt
    unfold get_pace_zone
    rw [if_neg hpz_ne]
    have hnone : paceZoneLoop pace (calculate_pace_zones s) 1 = none := by
      rw [hcpz]
      refine paceZoneLoop_none pace _ 1 (fun w hw hc => ?_)
      have hw2 : w.2 ∈ s.pace_zones := paceZonesGo_snd_mem s.pace_zones none w hw
      have hle := descStrict_getLastD_le s.pace_zones hdesc w.2 hw2
      exact absurd hc.1 (not_le.2 (lt_of_lt_of_le hlt hle))
    rw [hnone, if_pos hlt]
    exact hppzlen
  refine ⟨?_, ?_, ?_, ?_, ?_, hPaceTop⟩
  · intro bpm h
    unfold get_hr_zone
    rw [if_pos h]
  · intro bpm h
    unfold get_hr_zone
    rw [if_neg (not_lt.2 h)]
    rcases hrZoneLoop_total_or_bounds bpm (calculate_hr_zones s) 1
      (calculate_hr_zones s).length with heq | ⟨h1, h2⟩
    · rw [hczlen] at heq ⊢
      rw [heq]
      omega
    · rw [hczlen] at h1 h2 ⊢
      omega
  · intro bpm hge pre z post hdecomp hpre hz
    unfold get_hr_zone
    rw [if_neg (not_lt.2 hge), hdecomp,
      hrZoneLoop_first bpm z post pre 1 _ hpre hz]
    omega
  · intro bpm hge hab
    unfold get_hr_zone
    rw [if_neg (not_lt.2 hge),
      hrZoneLoop_none bpm (calculate_hr_zones s) 1 _
        (fun w hw hc => absurd hc.2 (not_le.2 (hab w hw)))]
    exact hczlen
  · intro pace
    by_cases hcase : s.pace_zones.getLastD 0 ≤ pace
    · unfold get_pace_zone
      rw [if_neg hpz_ne]
      obtain ⟨j, hj, hji, hjb⟩ := paceZoneLoop_coverage pace s.pace_zones none 1
        hpz_ne (fun q hq => absurd hq (by simp)) hcase
      rw [hcpz]
      simp only [hj]
      rw [hpzlen] at hjb
      omega
    · have := hPaceTop pace (not_le.1 hcase)
      rw [this]
      omega

/-- The default 5-zone settings (`UserSettings.create_default`). -/
def defaultUserSettings : UserSettings :=
  { id := none
    athlete_id := 1
    zone_model_type := "5_zone"
    max_heart_rate := 190
    rest_heart_rate := 60
    hr_zones := [60, 70, 80, 90, 100]
    pace_zones := [7, 6, 5, 9/2, 4]
    calendar_start_day := "monday"
    distance_unit := "km"
    temperature_unit := "celsius"
    created_at := 0
    updated_at := 0 }

/-- C3 witness at the default 5-zone settings. -/
theorem ant_c3_witness :
    get_hr_zone 59 defaultUserSettings = 0 ∧
    (1 ≤ get_hr_zone 150 defaultUserSettings ∧
      get_hr_zone 150 defaultUserSettings ≤ 5) ∧
    (1 ≤ get_pace_zone (11/2) defaultUserSettings ∧
      get_pace_zone (11/2) defaultUserSettings ≤ 5) ∧
    get_pace_zone 3 defaultUserSettings = 5 := by
  have h := ant_c3 defaultUserSettings 5 (by decide)
    (by norm_num [defaultUserSettings, validate_zone_array, zoneCount,
      ascStrict, descStrict]
        <;> decide)
    (by norm_num [defaultUserSettings, validate_zone_array, zoneCount,
      ascStrict, descStrict]
        <;> decide)
    (by decide)
  exact ⟨h.1 59 (by decide), h.2.1 150 (by decide),
    h.2.2.2.2.1 (11/2),
    h.2.2.2.2.2 3 (by norm_num [defaultUserSettings, List.getLastD_cons])⟩

/-! ## Claim C9: pace formatting round trip -/

theorem isDigitCh_digitCh (d : ℕ) (h : d < 10) : isDigitCh (digitCh d) = true := by
  have hall : ∀ e : ℕ, e < 10 → isDigitCh (digitCh e) = true := by decide
  exact hall d h

theorem digitCh_toNat (d : ℕ) (h : d < 10) : (digitCh d).toNat = 48 + d := by
  have hall : ∀ e : ℕ, e < 10 → (digitCh e).toNat = 48 + e := by decide
  exact hall d h

theorem natReprCharsAux_all_digit (fuel : ℕ) :
    ∀ n, (natReprCharsAux fuel n).all isDigitCh = true := by
  induction fuel with
  | zero => intro n; rfl
  | succ fuel ih =>
    intro n
    simp only [natReprCharsAux]
    by_cases h : n < 10
    · rw [if_pos h]
      simp [isDigitCh_digitCh n h]
    · rw [if_neg h]
      rw [List.all_append, ih (n / 10)]
      simp [isDigitCh_digitCh (n % 10) (Nat.mod_lt n (by omega))]

theorem natReprCharsAux_ne_nil (fuel n : ℕ) (h : n < fuel) :
    natReprCharsAux fuel n ≠ [] := by
  cases fuel with
  | zero => omega
  | succ fuel =>
    simp only [natReprCharsAux]
    by_cases h10 : n < 10
    · rw [if_pos h10]; simp
    · rw [if_neg h10]; simp

theorem digitsAcc_append_digit (a : List Char) (c : Char) :
    digitsAcc (a ++ [c]) = digitsAcc a * 10 + (c.toNat - 48) := by
  simp [digitsAcc, List.foldl_append]

theorem digitsAcc_natReprCharsAux (fuel : ℕ) :
    ∀ n, n < fuel → digitsAcc (natReprCharsAux fuel n) = n := by
  induction fuel with
  | zero => intro n h; omega
  | succ fuel ih =>
    intro n h
    simp only [natReprCharsAux]
    by_cases h10 : n < 10
    · rw [if_pos h10]
      simp only [digitsAcc, List.foldl_cons, List.foldl_nil]
      rw [digitCh_toNat n h10]
      omega
    · rw [if_neg h10]
      rw [digitsAcc_append_digit, ih (n / 10) (by omega),
        digitCh_toNat (n % 10) (Nat.mod_lt n (by omega))]
      omega

theorem digitsVal_natReprChars (n : ℕ) : digitsVal (natReprChars n) = some n := by
  unfold natReprChars digitsVal
  rw [if_pos ⟨natReprCharsAux_ne_nil (n + 1) n (by omega),
    natReprCharsAux_all_digit (n + 1) n⟩]
  rw [digitsAcc_natReprCharsAux (n + 1) n (by omega)]

theorem isPySpace_false_of_digit (c : Char) (h : isDigitCh c = true) :
    isPySpace c = false := by
  simp only [isDigitCh, Bool.and_eq_true, decide_eq_true_eq] at h
  by_contra hsp
  rw [Bool.not_eq_false] at hsp
  simp only [isPySpace, Bool.or_eq_true, decide_eq_true_eq] at hsp
  rcases hsp with ((((h1 | h1) | h1) | h1) | h1) | h1 <;>
    (subst h1; exact absurd h.1 (by decide))

theorem isDigitCh_ne_colon (c : Char) (h : isDigitCh c = true) : c ≠ ':' := by
  intro heq
  rw [heq] at h
  exact absurd h (by decide)

theorem stripChars_eq_self (l : List Char) (h : ∀ c ∈ l, isPySpace c = false) :
    stripChars l = l := by
  unfold stripChars
  have h1 : l.dropWhile isPySpace = l := by
    cases l with
    | nil => rfl
    | cons a t => simp [List.dropWhile_cons, h a (List.mem_cons_self _ _)]
  rw [h1]
  have h2 : l.reverse.dropWhile isPySpace = l.reverse := by
    cases hrev : l.reverse with
    | nil => rfl
    | cons a t =>
      have ha : a ∈ l := by
        rw [← List.mem_reverse, hrev]
        exact List.mem_cons_self _ _
      simp [List.dropWhile_cons, h a ha]
  rw [h2, List.reverse_reverse]

theorem splitOnColon_no_colon (l : List Char) (h : ∀ c ∈ l, c ≠ ':') :
    splitOnColon l = [l] := by
  induction l with
  | nil => rfl
  | cons a t ih =>
    simp only [splitOnColon]
    rw [if_neg (h a (List.mem_cons_self _ _)),
      ih (fun c hc => h c (List.mem_cons_of_mem _ hc))]

theorem splitOnColon_append (a b : List Char) (ha : ∀ c ∈ a, c ≠ ':') :
    splitOnColon (a ++ ':' :: b) = a :: splitOnColon b := by
  induction a with
  | nil =>
    simp only [List.nil_append, splitOnColon]
    simp
  | cons x xs ih =>
    simp only [List.cons_append, splitOnColon, List.append_eq]
    rw [if_neg (ha x (List.mem_cons_self _ _)),
      ih (fun c hc => ha c (List.mem_cons_of_mem _ hc))]

theorem pyParseInt_digits (l : List Char) (hne : l ≠ [])
    (hdig : l.all isDigitCh = true) :
    pyParseInt l = some ((digitsAcc l : ℕ) : ℤ) := by
  have hstrip : stripChars l = l := stripChars_eq_self l (fun c hc =>
    isPySpace_false_of_digit c (List.all_eq_true.1 hdig c hc))
  cases l with
  | nil => exact absurd rfl hne
  | cons c cs =>
    have hc : isDigitCh c = true :=
      List.all_eq_true.1 hdig c (List.mem_cons_self _ _)
    unfold pyParseInt
    simp only [hstrip]
    rw [if_neg (by simp)]
    rw [if_neg (by
      simp only [List.headD_cons]
      intro heq
      rw [heq] at hc
      exact absurd hc (by decide))]
    rw [if_neg (by
      simp only [List.headD_cons]
      intro heq
      rw [heq] at hc
      exact absurd hc (by decide))]
    unfold digitsVal
    rw [if_pos ⟨by simp, hdig⟩]
    rfl

theorem pyParseInt_natReprChars (n : ℕ) :
    pyParseInt (natReprChars n) = some (n : ℤ) := by
  rw [pyParseInt_digits (natReprChars n)
    (natReprCharsAux_ne_nil (n + 1) n (by omega))
    (natReprCharsAux_all_digit (n + 1) n)]
  rw [show digitsAcc (natReprChars n) = n from
    digitsAcc_natReprCharsAux (n + 1) n (by omega)]

theorem intReprChars_nonneg (m : ℤ) (h : 0 ≤ m) :
    intReprChars m = natReprChars m.toNat := by
  unfold intReprChars
  rw [if_neg (not_lt.2 h)]

theorem pad2Chars_all_digit (s : ℤ) (h0 : 0 ≤ s) :
    (pad2Chars s).all isDigitCh = true := by
  unfold pad2Chars
  by_cases hlt : s < 10
  · rw [if_pos ⟨h0, hlt⟩]
    simp only [List.all_cons, Bool.and_eq_true]
    exact ⟨by decide, natReprCharsAux_all_digit _ _⟩
  · rw [if_neg (by tauto)]
    rw [intReprChars_nonneg s h0]
    exact natReprCharsAux_all_digit _ _

theorem pyParseInt_pad2 (s : ℤ) (h0 : 0 ≤ s) :
    pyParseInt (pad2Chars s) = some s := by
  unfold pad2Chars
  by_cases hlt : s < 10
  · rw [if_pos ⟨h0, hlt⟩]
    have hrepr : natReprChars s.toNat = [digitCh s.toNat] := by
      unfold natReprChars
      simp only [natReprCharsAux]
      rw [if_pos (by omega)]
    rw [hrepr]
    rw [pyParseInt_digits _ (by simp)
      (by simp [isDigitCh_digitCh s.toNat (by omega),
        show isDigitCh '0' = true from by decide])]
    have hacc : digitsAcc ['0', digitCh s.toNat] = s.toNat := by
      simp only [digitsAcc, List.foldl_cons, List.foldl_nil]
      rw [digitCh_toNat s.toNat (by omega),
        show ('0' : Char).toNat = 48 from rfl]
      omega
    rw [hacc, Int.toNat_of_nonneg h0]
  · rw [if_neg (by tauto)]
    rw [intReprChars_nonneg s h0]
    rw [pyParseInt_natReprChars, Int.toNat_of_nonneg h0]

theorem pyMod_sixty_nonneg_lt (x : ℚ) : 0 ≤ pyMod x 60 ∧ pyMod x 60 < 60 := by
  unfold pyMod
  have h2 : ((⌊x / 60⌋ : ℤ) : ℚ) ≤ x / 60 := Int.floor_le _
  have h3 : x / 60 < ⌊x / 60⌋ + 1 := Int.lt_floor_add_one _
  constructor
  · nlinarith
  · nlinarith

theorem parse_pace_of_parts (s : String) (a b : List Char) (ma sb : ℤ)
    (hsplit : splitOnColon (stripChars s.data) = [a, b])
    (hA : pyParseInt a = some ma) (hB : pyParseInt b = some sb) :
    parse_pace s = ((ma * 60 + sb : ℤ) : ℚ) := by
  unfold parse_pace
  rw [hsplit]
  simp only [hA, hB]

theorem parse_format_pace_floor (x : ℚ) (hx : 0 ≤ x) :
    parse_pace (format_pace x) = ((⌊x⌋ : ℤ) : ℚ) := by
  rcases eq_or_lt_of_le hx with heq | hpos
  · rw [← heq]
    have h1 : parse_pace (format_pace 0) = ((0 : ℤ) : ℚ) := rfl
    rw [h1]
    norm_num
  · have hm0 : (0 : ℤ) ≤ ⌊x / 60⌋ := Int.floor_nonneg.2 (by positivity)
    obtain ⟨hs0, hs60⟩ := pyMod_sixty_nonneg_lt x
    have hsec0 : (0 : ℤ) ≤ ⌊pyMod x 60⌋ := Int.floor_nonneg.2 hs0
    have hformat : format_pace x =
        String.mk (intReprChars ⌊x / 60⌋ ++ ':' :: pad2Chars ⌊pyMod x 60⌋) := by
      unfold format_pace
      rw [if_neg (not_le.2 hpos)]
    have hmchars : intReprChars ⌊x / 60⌋ = natReprChars (⌊x / 60⌋).toNat :=
      intReprChars_nonneg _ hm0
    have hmdig : (intReprChars ⌊x / 60⌋).all isDigitCh = true := by
      rw [hmchars]
      exact natReprCharsAux_all_digit _ _
    have hpdig : (pad2Chars ⌊pyMod x 60⌋).all isDigitCh = true :=
      pad2Chars_all_digit _ hsec0
    have hnospace : ∀ c ∈ intReprChars ⌊x / 60⌋ ++ ':' :: pad2Chars ⌊pyMod x 60⌋,
        isPySpace c = false := by
      intro c hc
      rcases List.mem_append.1 hc with h | h
      · exact isPySpace_false_of_digit c (List.all_eq_true.1 hmdig c h)
      · rcases List.mem_cons.1 h with rfl | h
        · decide
        · exact isPySpace_false_of_digit c (List.all_eq_true.1 hpdig c h)
    have hsplit : splitOnColon (stripChars (format_pace x).data) =
        [intReprChars ⌊x / 60⌋, pad2Chars ⌊pyMod x 60⌋] := by
      rw [hformat]
      have hdata : (String.mk
          (intReprChars ⌊x / 60⌋ ++ ':' :: pad2Chars ⌊pyMod x 60⌋)).data =
          intReprChars ⌊x / 60⌋ ++ ':' :: pad2Chars ⌊pyMod x 60⌋ := rfl
      rw [hdata, stripChars_eq_self _ hnospace,
        splitOnColon_append _ _
          (fun c hc => isDigitCh_ne_colon c (List.all_eq_true.1 hmdig c hc)),
        splitOnColon_no_colon _
          (fun c hc => isDigitCh_ne_colon c (List.all_eq_true.1 hpdig c hc))]
    have hA : pyParseInt (intReprChars ⌊x / 60⌋) = some ⌊x / 60⌋ := by
      rw [hmchars, pyParseInt_natReprChars, Int.toNat_of_nonneg hm0]
    have hB : pyParseInt (pad2Chars ⌊pyMod x 60⌋) = some ⌊pyMod x 60⌋ :=
      pyParseInt_pad2 _ hsec0
    rw [parse_pace_of_parts (format_pace x) _ _ _ _ hsplit hA hB]
    have harith : ⌊x / 60⌋ * 60 + ⌊pyMod x 60⌋ = ⌊x⌋ := by
      have hmod : pyMod x 60 = x - ((60 * ⌊x / 60⌋ : ℤ) : ℚ) := by
        unfold pyMod
        push_cast
        ring
      rw [hmod, Int.floor_sub_int]
      omega
    rw [harith]

theorem strava_format_eq (x : ℚ) (hx : 0 ≤ x) :
    strava_format_pace (some x) = format_pace (60 * x) := by
  rcases eq_or_lt_of_le hx with heq | hpos
  · rw [← heq]
    norm_num [strava_format_pace, pyTrunc, format_pace]
    rfl
  · have hfl : pyTrunc x = ⌊x⌋ := by
      unfold pyTrunc
      rw [if_pos hx]
    have hss : (0 : ℚ) ≤ (x - (⌊x⌋ : ℤ)) * 60 :=
      mul_nonneg (sub_nonneg.2 (Int.floor_le x)) (by norm_num)
    have htr : pyTrunc ((x - ((⌊x⌋ : ℤ) : ℚ)) * 60) =
        ⌊(x - ((⌊x⌋ : ℤ) : ℚ)) * 60⌋ := by
      unfold pyTrunc
      rw [if_pos hss]
    have hmod2 : pyMod (60 * x) 60 = (x - ((⌊x⌋ : ℤ) : ℚ)) * 60 := by
      unfold pyMod
      rw [show (60 : ℚ) * x / 60 = x from by ring]
      ring
    simp only [strava_format_pace]
    unfold format_pace
    rw [if_neg (not_le.2 (by positivity : (0 : ℚ) < 60 * x))]
    rw [hfl, htr, hmod2,
      show (60 : ℚ) * x / 60 = x from by ring]

/-- C9 counterexample: read in the claim's unit (minutes per km), the
round trip is not stable to whole-second (1/60 min/km) precision: the
functions actually take seconds per km, so `format_pace(5.5)` renders
"0:05" and parses back to 5, half a minute per km away from 5.5. -/
theorem ant_c9_cex :
    parse_pace (format_pace (11/2)) = 5 ∧
    ¬(|parse_pace (format_pace (11/2)) - 11/2| ≤ 1/60) := by
  have h := parse_format_pace_floor (11/2) (by norm_num)
  have h5 : parse_pace (format_pace (11/2)) = 5 := by
    rw [h]
    norm_num
  refine ⟨h5, ?_⟩
  rw [h5, show (5 : ℚ) - 11/2 = -(1/2) from by norm_num, abs_neg,
    abs_of_nonneg (by norm_num : (0 : ℚ) ≤ 1/2)]
  norm_num

/-- C9 amended: the pace formatting functions convert a
**seconds-per-km** value to an "M:SS" string and back: for every
seconds-per-km x ≥ 0, `parse_pace(format_pace(x))` is `⌊x⌋` — within one
second of x, and exactly x when x is a whole number of seconds — and the
minutes-per-km formatter of `strava_api.py` renders the same string as
`format_pace` after converting minutes to seconds. -/
theorem ant_c9 :
    (∀ x : ℚ, 0 ≤ x → parse_pace (format_pace x) = ((⌊x⌋ : ℤ) : ℚ)) ∧
    (∀ x : ℚ, 0 ≤ x → |parse_pace (format_pace x) - x| < 1) ∧
    (∀ n : ℤ, 0 ≤ n → parse_pace (format_pace (n : ℚ)) = (n : ℚ)) ∧
    (∀ x : ℚ, 0 ≤ x → strava_format_pace (some x) = format_pace (60 * x)) := by
  refine ⟨parse_format_pace_floor, ?_, ?_, strava_format_eq⟩
  · intro x hx
    rw [parse_format_pace_floor x hx]
    have h1 := Int.floor_le x
    have h2 := Int.lt_floor_add_one x
    rw [abs_sub_comm, abs_of_nonneg (by linarith)]
    push_cast at h2 ⊢
    linarith
  · intro n hn
    rw [parse_format_pace_floor (n : ℚ) (by exact_mod_cast hn),
      Int.floor_intCast]

/-- C9 amended witness: 330 s/km renders as "5:30" and round-trips. -/
theorem ant_c9_witness :
    parse_pace (format_pace 330) = 330 ∧
    strava_format_pace (some (11/2)) = format_pace 330 := by
  have h1 := ant_c9.2.2.1 330 (by norm_num)
  have h2 := ant_c9.2.2.2 (11/2) (by norm_num)
  rw [show ((60 : ℚ) * (11/2)) = 330 from by norm_num] at h2
  refine ⟨?_, h2⟩
  exact_mod_cast h1

/-! ## Claim C7: retry with backoff -/

theorem retry_fatal_run (f : ℚ) :
    ∀ (k : ℕ) (outs : ℕ → CallOutcome) (maxR : ℕ) (d : ℚ) (s : ℕ),
      k < maxR → (∀ j < k, isRetryableFailure (outs j) = true) →
      outs k = CallOutcome.httpError s → (s = 401 ∨ s = 403 ∨ s = 404) →
      retry_with_backoff outs maxR d f =
        (k + 1, backoffSleeps outs d f k, RetryResult.raisedHttp s) := by
  intro k
  induction k with
  | zero =>
    intro outs maxR d s hk _ hout hfatal
    cases maxR with
    | zero => omega
    | succ r =>
      simp only [retry_with_backoff, hout]
      rw [if_pos hfatal]
      rfl
  | succ k ih =>
    intro outs maxR d s hk hretry hout hfatal
    cases maxR with
    | zero => omega
    | succ r =>
      have h0 : isRetryableFailure (outs 0) = true := hretry 0 (by omega)
      have hr0 : r ≠ 0 := by omega
      cases houts0 : outs 0 with
      | success v =>
        rw [houts0] at h0
        exact absurd h0 (by simp [isRetryableFailure])
      | httpError s0 =>
        have hnf : ¬(s0 = 401 ∨ s0 = 403 ∨ s0 = 404) := by
          rw [houts0] at h0
          simpa [isRetryableFailure] using h0
        have hrec := ih (fun n => outs (n + 1)) r
          ((if s0 = 429 then (60 : ℚ) else d) * f) s (by omega)
          (fun j hj => hretry (j + 1) (by omega)) hout hfatal
        simp only [retry_with_backoff, houts0]
        rw [if_neg hnf, if_neg hr0]
        simp only [hrec, backoffSleeps, houts0, sleepDelay]
      | otherError =>
        have hrec := ih (fun n => outs (n + 1)) r (d * f) s (by omega)
          (fun j hj => hretry (j + 1) (by omega)) hout hfatal
        simp only [retry_with_backoff, houts0]
        rw [if_neg hr0]
        simp only [hrec, backoffSleeps, houts0, sleepDelay]

theorem retry_success_run (f : ℚ) :
    ∀ (k : ℕ) (outs : ℕ → CallOutcome) (maxR : ℕ) (d : ℚ) (v : ℕ),
      k < maxR → (∀ j < k, isRetryableFailure (outs j) = true) →
      outs k = CallOutcome.success v →
      retry_with_backoff outs maxR d f =
        (k + 1, backoffSleeps outs d f k, RetryResult.ok v) := by
  intro k
  induction k with
  | zero =>
    intro outs maxR d v hk _ hout
    cases maxR with
    | zero => omega
    | succ r =>
      simp only [retry_with_backoff, hout]
      rfl
  | succ k ih =>
    intro outs maxR d v hk hretry hout
    cases maxR with
    | zero => omega
    | succ r =>
      have h0 : isRetryableFailure (outs 0) = true := hretry 0 (by omega)
      have hr0 : r ≠ 0 := by omega
      cases houts0 : outs 0 with
      | success w =>
        rw [houts0] at h0
        exact absurd h0 (by simp [isRetryableFailure])
      | httpError s0 =>
        have hnf : ¬(s0 = 401 ∨ s0 = 403 ∨ s0 = 404) := by
          rw [houts0] at h0
          simpa [isRetryableFailure] using h0
        have hrec := ih (fun n => outs (n + 1)) r
          ((if s0 = 429 then (60 : ℚ) else d) * f) v (by omega)
          (fun j hj => hretry (j + 1) (by omega)) hout
        simp only [retry_with_backoff, houts0]
        rw [if_neg hnf, if_neg hr0]
        simp only [hrec, backoffSleeps, houts0, sleepDelay]
      | otherError =>
        have hrec := ih (fun n => outs (n + 1)) r (d * f) v (by omega)
          (fun j hj => hretry (j + 1) (by omega)) hout
        simp only [retry_with_backoff, houts0]
        rw [if_neg hr0]
        simp only [hrec, backoffSleeps, houts0, sleepDelay]

theorem retry_all_fail_run (f : ℚ) :
    ∀ (maxR : ℕ) (outs : ℕ → CallOutcome) (d : ℚ),
      1 ≤ maxR → (∀ j < maxR, isRetryableFailure (outs j) = true) →
      retry_with_backoff outs maxR d f =
        (maxR, backoffSleeps outs d f (maxR - 1),
         failureResult (outs (maxR - 1))) := by
  intro maxR
  induction maxR with
  | zero => intro outs d h; omega
  | succ r ih =>
    intro outs d _ hretry
    have h0 : isRetryableFailure (outs 0) = true := hretry 0 (by omega)
    by_cases hr0 : r = 0
    · subst hr0
      cases houts0 : outs 0 with
      | success v =>
        rw [houts0] at h0
        exact absurd h0 (by simp [isRetryableFailure])
      | httpError s0 =>
        have hnf : ¬(s0 = 401 ∨ s0 = 403 ∨ s0 = 404) := by
          rw [houts0] at h0
          simpa [isRetryableFailure] using h0
        simp only [retry_with_backoff, houts0]
        rw [if_neg hnf]
        simp [backoffSleeps, failureResult]
      | otherError =>
        simp only [retry_with_backoff, houts0]
        simp [backoffSleeps, failureResult]
    · cases houts0 : outs 0 with
      | success v =>
        rw [houts0] at h0
        exact absurd h0 (by simp [isRetryableFailure])
      | httpError s0 =>
        have hnf : ¬(s0 = 401 ∨ s0 = 403 ∨ s0 = 404) := by
          rw [houts0] at h0
          simpa [isRetryableFailure] using h0
        have hrec := ih (fun n => outs (n + 1))
          ((if s0 = 429 then (60 : ℚ) else d) * f) (by omega)
          (fun j hj => hretry (j + 1) (by omega))
        simp only [retry_with_backoff, houts0]
        rw [if_neg hnf, if_neg hr0]
        simp only [hrec]
        obtain ⟨r', rfl⟩ : ∃ r', r = r' + 1 := ⟨r - 1, by omega⟩
        simp only [backoffSleeps, houts0, sleepDelay, Nat.add_sub_cancel,
          Nat.succ_sub_one]
      | otherError =>
        have hrec := ih (fun n => outs (n + 1)) (d * f) (by omega)
          (fun j hj => hretry (j + 1) (by omega))
        simp only [retry_with_backoff, houts0]
        rw [if_neg hr0]
        simp only [hrec]
        obtain ⟨r', rfl⟩ : ∃ r', r = r' + 1 := ⟨r - 1, by omega⟩
        simp only [backoffSleeps, houts0, sleepDelay, Nat.add_sub_cancel,
          Nat.succ_sub_one]

/-- C7: `retry_with_backoff` never retries a 401/403/404 failure — after
any run of retryable failures, the first such status is re-raised
immediately with no further call and no further sleep; any other failure
is retried up to the attempt bound with sleeps following the backoff
schedule (the current delay, multiplied by the backoff factor after each
attempt, escalated to a flat 60 s after a 429); when every attempt fails
the last exception is raised after exactly `max_retries` calls; a
success after retryable failures stops the loop with its value. -/
theorem ant_c7 :
    (∀ (outs : ℕ → CallOutcome) (maxR k : ℕ) (d f : ℚ) (s : ℕ),
      k < maxR → (∀ j < k, isRetryableFailure (outs j) = true) →
      outs k = CallOutcome.httpError s → (s = 401 ∨ s = 403 ∨ s = 404) →
      retry_with_backoff outs maxR d f =
        (k + 1, backoffSleeps outs d f k, RetryResult.raisedHttp s)) ∧
    (∀ (outs : ℕ → CallOutcome) (maxR : ℕ) (d f : ℚ),
      1 ≤ maxR → (∀ j < maxR, isRetryableFailure (outs j) = true) →
      retry_with_backoff outs maxR d f =
        (maxR, backoffSleeps outs d f (maxR - 1),
         failureResult (outs (maxR - 1)))) ∧
    (∀ (outs : ℕ → CallOutcome) (maxR k : ℕ) (d f : ℚ) (v : ℕ),
      k < maxR → (∀ j < k, isRetryableFailure (outs j) = true) →
      outs k = CallOutcome.success v →
      retry_with_backoff outs maxR d f =
        (k + 1, backoffSleeps outs d f k, RetryResult.ok v)) :=
  ⟨fun outs maxR k d f s hk hr ho hf => retry_fatal_run f k outs maxR d s hk hr ho hf,
   fun outs maxR d f h1 hr => retry_all_fail_run f maxR outs d h1 hr,
   fun outs maxR k d f v hk hr ho => retry_success_run f k outs maxR d v hk hr ho⟩

/-- Outcome stream for the C7 witness: 500, then 429, then 500. -/
def c7Outs (n : ℕ) : CallOutcome :=
[CallOutcome.httpError 500, CallOutcome.httpError 429,
  CallOutcome.httpError 500].getD n CallOutcome.otherError

/-- C7 witness: three failing attempts with initial delay 1 and factor 2
sleep 1 s then the flat 60 s cooldown, and re-raise the last 500. -/
theorem ant_c7_witness :
    retry_with_backoff c7Outs 3 1 2 = (3, [1, 60], RetryResult.raisedHttp 500) := by
  have h := ant_c7.2.1 c7Outs 3 1 2 (by norm_num) (by decide)
  rw [h]
  norm_num [backoffSleeps, sleepDelay, c7Outs, failureResult]

/-! ## Claims C5 and C6: sync fetch horizon and token refresh -/

/-- A stored activity whose start timestamp is exactly the Unix epoch. -/
def c5ActivityZero : Activity :=
  { strava_id := 1
    athlete_id := 1
    name := "Epoch run"
    distance := 5000
    moving_time := 1500
    elapsed_time := 1500
    total_elevation_gain := 0
    sport_type := "Run"
    start_date := 0
    start_date_local := 0
    timezone := none
    average_speed := none
    max_speed := none
    average_heartrate := none
    max_heartrate := none
    has_heartrate := false
    average_cadence := none
    elev_high := none
    elev_low := none
    polyline := none
    calories := none
    achievement_count := none
    kudos_count := none
    comment_count := none
    athlete_count := none
    id := some 1
    created_at := 0
    updated_at := 0 }

/-- The same stored activity with start timestamp 77. -/
def c5Activity77 : Activity :=
  { c5ActivityZero with strava_id := 3, start_date := 77, start_date_local := 77 }

/-- A remote activity whose start is also the epoch — not strictly after
the latest stored start. -/
def c5RemoteZero : StravaActivity :=
  { id := 2
    name := some "Old run"
    distance := none
    moving_time := none
    elapsed_time := none
    total_elevation_gain := none
    sport_type := none
    type := none
    start_date := some 0
    start_date_local := some 0
    timezone := none
    average_speed := none
    max_speed := none
    average_heartrate := none
    max_heartrate := none
    has_heartrate := none
    average_cadence := none
    elev_high := none
    elev_low := none
    map_summary_polyline := none
    calories := none
    achievement_count := none
    kudos_count := none
    comment_count := none
    athlete_count := none }

/-- An athlete whose token expires exactly at time 1000. -/
def c6Athlete : Athlete :=
  { id := some 1
    strava_id := 7
    username := none
    firstname := none
    lastname := none
    profile_medium := none
    access_token := "old-access"
    refresh_token := "old-refresh"
    expires_at := 1000
    created_at := 0
    updated_at := 0 }

/-- The token endpoint's response in the C6 scenarios. -/
def c6Token : TokenData :=
  { access_token := "new-access"
    refresh_token := "new-refresh"
    expires_at := 2000 }

theorem maxStart_le (l : List Activity) :
    ∀ m : ℤ, maxStart l = some m → ∀ a ∈ l, a.start_date ≤ m := by
  induction l with
  | nil => intro m hm; simp [maxStart] at hm
  | cons b t ih =>
    intro m hm a ha
    simp only [maxStart] at hm
    rcases List.mem_cons.1 ha with rfl | ha2
    · cases ht : maxStart t with
      | none => rw [ht] at hm; simp at hm; omega
      | some mt => rw [ht] at hm; simp at hm; omega
    · cases ht : maxStart t with
      | none =>
        rcases t with _ | ⟨c, t'⟩
        · exact absurd ha2 (List.not_mem_nil a)
        · simp [maxStart] at ht
      | some mt =>
        have := ih mt ht a ha2
        rw [ht] at hm
        simp at hm
        omega

theorem maxStart_mem (l : List Activity) :
    ∀ m : ℤ, maxStart l = some m → ∃ a ∈ l, a.start_date = m := by
  induction l with
  | nil => intro m hm; simp [maxStart] at hm
  | cons b t ih =>
    intro m hm
    simp only [maxStart] at hm
    cases ht : maxStart t with
    | none =>
      rw [ht] at hm
      simp at hm
      exact ⟨b, List.mem_cons_self _ _, hm⟩
    | some mt =>
      rw [ht] at hm
      simp at hm
      rcases max_cases b.start_date mt with ⟨hmax, _⟩ | ⟨hmax, _⟩
      · exact ⟨b, List.mem_cons_self _ _, by omega⟩
      · obtain ⟨a, ha, hae⟩ := ih mt ht
        exact ⟨a, List.mem_cons_of_mem _ ha, by omega⟩

/-- C5 counterexample: a stored activity whose latest start timestamp is
exactly 0 (the Unix epoch) is falsy in `if after:`, so the `after`
parameter is dropped and the request no longer restricts to activities
strictly after the latest stored start: a valid response may return an
activity with that very start time again. -/
theorem ant_c5_cex :
    maxStart [c5ActivityZero] = some 0 ∧
    (syncListParams [c5ActivityZero] 5).after = none ∧
    ValidListResponse (syncListParams [c5ActivityZero] 5) [c5RemoteZero] ∧
    c5RemoteZero.start_date = some 0 ∧ ¬((0 : ℤ) < 0) := by
  refine ⟨rfl, rfl, ?_, rfl, by omega⟩
  constructor
  · show 1 ≤ (syncListParams [c5ActivityZero] 5).per_page
    norm_num [syncListParams, get_athlete_activities_params]
  · intro r hr
    constructor
    · intro a ha
      exact absurd ha (by simp [syncListParams, get_athlete_activities_params,
        syncAfterTimestamp, maxStart, c5ActivityZero, pyTruthyInt])
    · intro b hb
      exact absurd hb (by simp [syncListParams, get_athlete_activities_params])

/-- C5 amended: the sync list request always uses page 1, `per_page` 100
(clamped to the remote maximum 200) and no `before`; when a stored
activity exists the `after` parameter is the start timestamp of the
stored activity with the most recent start — **provided that timestamp
is nonzero** (a zero timestamp is falsy in `if after:` and the filter is
dropped) — so that in any valid remote response every activity starts
strictly after it, and in particular at most 100 activities are returned
and no activity strictly older than it is re-requested; when no stored
activity exists the `after` parameter is now minus 30 days (again, when
nonzero). -/
theorem ant_c5 (stored : List Activity) (now : ℤ) :
    ((syncListParams stored now).page = 1 ∧
     (syncListParams stored now).per_page = 100 ∧
     (syncListParams stored now).before = none) ∧
    (∀ m : ℤ, maxStart stored = some m →
      (∀ a ∈ stored, a.start_date ≤ m) ∧ (∃ a ∈ stored, a.start_date = m) ∧
      (m ≠ 0 →
        (syncListParams stored now).after = some m ∧
        (∀ resp : List StravaActivity,
          ValidListResponse (syncListParams stored now) resp →
          resp.length ≤ 100 ∧
          ∀ r ∈ resp, ∀ sd, r.start_date = some sd → m < sd))) ∧
    (maxStart stored = none → now - 2592000 ≠ 0 →
      (syncListParams stored now).after = some (now - 2592000)) := by
  refine ⟨⟨rfl, rfl, ?_⟩, ?_, ?_⟩
  · unfold syncListParams get_athlete_activities_params
    rfl
  · intro m hm
    refine ⟨maxStart_le stored m hm, maxStart_mem stored m hm, ?_⟩
    intro hm0
    have hafter : (syncListParams stored now).after = some m := by
      unfold syncListParams get_athlete_activities_params syncAfterTimestamp
      rw [hm]
      simp [pyTruthyInt, hm0]
    refine ⟨hafter, ?_⟩
    intro resp hvalid
    obtain ⟨hlen, hall⟩ := hvalid
    refine ⟨by simpa [syncListParams, get_athlete_activities_params] using hlen, ?_⟩
    intro r hr sd hsd
    exact (hall r hr).1 m hafter sd hsd
  · intro hnone h30
    unfold syncListParams get_athlete_activities_params syncAfterTimestamp
    rw [hnone]
    simp [pyTruthyInt, h30]

/-- C6 counterexample: at the boundary `current time = expires_at` the
claim demands a refresh (current time ≥ expires_at), but the code's test
is the strict `expires_at < current_time`, so no refresh happens. -/
theorem ant_c6_cex :
    c6Athlete.expires_at ≤ 1000 ∧
    countRefreshCalls (syncTrace c6Athlete 1000 c6Token []) = 0 := by
  exact ⟨by norm_num [c6Athlete], rfl⟩

/-- C6 amended: a token refresh call is performed if and only if the
stored `expires_at` is **strictly less** than the current time (not ≤);
when performed it happens exactly once, before the activity fetch, the
remote-reported (access, refresh, expires_at) triple is persisted before
the fetch, and the fetch uses the new access token; otherwise the trace
is just the fetch with the stored token. -/
theorem ant_c6 (a : Athlete) (now : ℤ) (t : TokenData)
    (stored : List Activity) :
    (countRefreshCalls (syncTrace a now t stored) =
      if a.expires_at < now then 1 else 0) ∧
    (a.expires_at < now →
      syncTrace a now t stored =
        [SyncEvent.refreshCall a.refresh_token,
         SyncEvent.persistTokens t.access_token t.refresh_token t.expires_at,
         SyncEvent.listFetch t.access_token (syncListParams stored now)]) ∧
    (¬a.expires_at < now →
      syncTrace a now t stored =
        [SyncEvent.listFetch a.access_token (syncListParams stored now)]) := by
  unfold syncTrace tokenStep
  by_cases h : a.expires_at < now
  · rw [if_pos h]
    refine ⟨?_, fun _ => rfl, fun hc => absurd h hc⟩
    rw [if_pos h]
    rfl
  · rw [if_neg h]
    refine ⟨?_, fun hc => absurd hc h, fun _ => rfl⟩
    rw [if_neg h]
    rfl

/-- C6 amended witness: an expired athlete at time 2000 refreshes once,
persists the new triple, then fetches with the new token. -/
theorem ant_c6_witness :
    syncTrace c6Athlete 2000 c6Token [] =
      [SyncEvent.refreshCall "old-refresh",
       SyncEvent.persistTokens "new-access" "new-refresh" 2000,
       SyncEvent.listFetch "new-access" (syncListParams [] 2000)] ∧
    countRefreshCalls (syncTrace c6Athlete 2000 c6Token []) = 1 := by
  have h := ant_c6 c6Athlete 2000 c6Token []
  refine ⟨?_, ?_⟩
  · rw [h.2.1 (by norm_num [c6Athlete])]
    rfl
  · rw [h.1]
    norm_num [c6Athlete]

/-- C5 amended witness: one stored activity with start 77 gives
`after=77`, and the empty store with now = 100 gives the 30-day window. -/
theorem ant_c5_witness :
    (syncListParams [c5Activity77] 5).after = some 77 ∧
    (syncListParams [] 100).after = some (100 - 2592000) ∧
    (syncListParams [c5Activity77] 5).per_page = 100 := by
  have h1 := ant_c5 [c5Activity77] 5
  have h2 := ant_c5 [] 100
  refine ⟨((h1.2.1 77 rfl).2.2 (by norm_num)).1, ?_, h1.1.2.1⟩
  exact h2.2.2 rfl (by norm_num)

/-! ## Claim C8: merge of fetched activities -/

theorem updateFirstMatch_spec (sid : ℤ) (f : Activity → Activity)
    (a : Activity) (post : List Activity) :
    ∀ pre : List Activity, (∀ b ∈ pre, b.strava_id ≠ sid) →
      a.strava_id = sid →
      updateFirstMatch sid f (pre ++ a :: post) = pre ++ f a :: post := by
  intro pre
  induction pre with
  | nil =>
    intro _ ha
    simp only [List.nil_append, updateFirstMatch]
    rw [if_pos ha]
  | cons b pre ih =>
    intro hpre ha
    simp only [List.cons_append, updateFirstMatch, List.append_eq]
    rw [if_neg (hpre b (List.mem_cons_self _ _)),
      ih (fun c hc => hpre c (List.mem_cons_of_mem _ hc)) ha]

/-- C8: merging a fetched remote activity into the store — when the
`strava_id` matches an existing row that row alone is replaced by the
merge, which overwrites every transformed field, bumps `updated_at` to
now and keeps `id` and `created_at`; when no row matches, a fresh row
(unassigned `id`, `created_at` = now) is appended; a per-item transform
failure leaves the store untouched and the batch continues with the
remaining activities. -/
theorem ant_c8 :
    (∀ (aid now : ℤ) (pre post : List Activity) (a : Activity)
        (r : StravaActivity) (d : ActivityData),
      transform_strava_activity r aid = some d →
      (∀ b ∈ pre, b.strava_id ≠ r.id) → a.strava_id = r.id →
      processOne aid now (pre ++ a :: post) r =
        pre ++ mergeExisting a d now :: post) ∧
    (∀ (a : Activity) (d : ActivityData) (now : ℤ),
      (mergeExisting a d now).id = a.id ∧
      (mergeExisting a d now).created_at = a.created_at ∧
      (mergeExisting a d now).updated_at = now ∧
      (mergeExisting a d now).strava_id = d.strava_id ∧
      (mergeExisting a d now).athlete_id = d.athlete_id ∧
      (mergeExisting a d now).name = d.name ∧
      (mergeExisting a d now).distance = d.distance ∧
      (mergeExisting a d now).moving_time = d.moving_time ∧
      (mergeExisting a d now).elapsed_time = d.elapsed_time ∧
      (mergeExisting a d now).total_elevation_gain = d.total_elevation_gain ∧
      (mergeExisting a d now).sport_type = d.sport_type ∧
      (mergeExisting a d now).start_date = d.start_date ∧
      (mergeExisting a d now).start_date_local = d.start_date_local ∧
      (mergeExisting a d now).timezone = d.timezone ∧
      (mergeExisting a d now).average_speed = d.average_speed ∧
      (mergeExisting a d now).max_speed = d.max_speed ∧
      (mergeExisting a d now).average_heartrate = d.average_heartrate ∧
      (mergeExisting a d now).max_heartrate = d.max_heartrate ∧
      (mergeExisting a d now).has_heartrate = d.has_heartrate ∧
      (mergeExisting a d now).average_cadence = d.average_cadence ∧
      (mergeExisting a d now).elev_high = d.elev_high ∧
      (mergeExisting a d now).elev_low = d.elev_low ∧
      (mergeExisting a d now).polyline = d.polyline ∧
      (mergeExisting a d now).calories = d.calories ∧
      (mergeExisting a d now).achievement_count = d.achievement_count ∧
      (mergeExisting a d now).kudos_count = d.kudos_count ∧
      (mergeExisting a d now).comment_count = d.comment_count ∧
      (mergeExisting a d now).athlete_count = d.athlete_count) ∧
    (∀ (aid now : ℤ) (db : List Activity) (r : StravaActivity)
        (d : ActivityData),
      transform_strava_activity r aid = some d →
      (∀ b ∈ db, b.strava_id ≠ r.id) →
      processOne aid now db r = db ++ [newActivity d now] ∧
      (newActivity d now).id = none ∧ (newActivity d now).created_at = now) ∧
    (∀ (aid now : ℤ) (db : List Activity) (r : StravaActivity)
        (rs : List StravaActivity),
      transform_strava_activity r aid = none →
      processOne aid now db r = db ∧
      processBatch aid now db (r :: rs) = processBatch aid now db rs) := by
  refine ⟨?_, ?_, ?_, ?_⟩
  · intro aid now pre post a r d htr hpre ha
    unfold processOne
    simp only [htr]
    rw [if_pos (by
      rw [List.any_eq_true]
      exact ⟨a, by simp, by simpa using ha⟩)]
    exact updateFirstMatch_spec r.id _ a post pre hpre ha
  · intro a d now
    exact ⟨rfl, rfl, rfl, rfl, rfl, rfl, rfl, rfl, rfl, rfl, rfl, rfl, rfl,
      rfl, rfl, rfl, rfl, rfl, rfl, rfl, rfl, rfl, rfl, rfl, rfl, rfl, rfl,
      rfl⟩
  · intro aid now db r d htr hnone
    refine ⟨?_, rfl, rfl⟩
    unfold processOne
    simp only [htr]
    rw [if_neg (by
      rw [List.any_eq_true]
      rintro ⟨b, hb, hbe⟩
      exact hnone b hb (by simpa using hbe))]
  · intro aid now db r rs htr
    have hone : processOne aid now db r = db := by
      unfold processOne
      simp only [htr]
    exact ⟨hone, by simp only [processBatch, List.foldl_cons, hone]⟩

/-- The stored row matched by the C8 witness. -/
def c8Stored : Activity :=
  { c5ActivityZero with strava_id := 5 }

/-- The fetched remote activity of the C8 witness. -/
def c8Remote : StravaActivity :=
  { c5RemoteZero with
      id := 5
      name := some "Run A"
      start_date := some 10
      start_date_local := some 11 }

/-- A malformed remote payload (no name), so the transform raises. -/
def c8BadRemote : StravaActivity :=
  { c5RemoteZero with id := 6, name := none }

/-- The transform of `c8Remote` for athlete 1. -/
def c8Data : ActivityData :=
  { strava_id := 5
    athlete_id := 1
    name := "Run A"
    distance := 0
    moving_time := 0
    elapsed_time := 0
    total_elevation_gain := 0
    sport_type := "Run"
    start_date := 10
    start_date_local := 11
    timezone := none
    average_speed := none
    max_speed := none
    average_heartrate := none
    max_heartrate := none
    has_heartrate := false
    average_cadence := none
    elev_high := none
    elev_low := none
    polyline := none
    calories := none
    achievement_count := none
    kudos_count := none
    comment_count := none
    athlete_count := none }

/-- C8 witness at a one-row store. -/
theorem ant_c8_witness :
    processOne 1 100 [c8Stored] c8Remote = [mergeExisting c8Stored c8Data 100] ∧
    (mergeExisting c8Stored c8Data 100).id = c8Stored.id ∧
    (mergeExisting c8Stored c8Data 100).updated_at = 100 ∧
    processOne 1 100 [] c8Remote = [newActivity c8Data 100] ∧
    processBatch 1 100 [c8Stored] [c8BadRemote] =
      processBatch 1 100 [c8Stored] [] := by
  have htr : transform_strava_activity c8Remote 1 = some c8Data := rfl
  have hbad : transform_strava_activity c8BadRemote 1 = none := rfl
  have h := ant_c8
  refine ⟨?_, (h.2.1 c8Stored c8Data 100).1, (h.2.1 c8Stored c8Data 100).2.2.1,
    ?_, (h.2.2.2 1 100 [c8Stored] c8BadRemote [] hbad).2⟩
  · have := h.1 1 100 [] [] c8Stored c8Remote c8Data htr
      (by intro b hb; exact absurd hb (List.not_mem_nil b)) rfl
    simpa using this
  · exact ((h.2.2.1 1 100 [] c8Remote c8Data htr
      (fun b hb => absurd hb (List.not_mem_nil b))).1).trans (by simp)

/-! ## Claim C10: unvalidated generic attribute assignment -/

/-- Whether a dictionary entry writes the `id` attribute. -/
def touchesId : UpdEntry → Bool
  | UpdEntry.setId _ => true
  | _ => false

/-- Whether a dictionary entry writes the `athlete_id` attribute. -/
def touchesAthleteId : UpdEntry → Bool
  | UpdEntry.setAthleteId _ => true
  | _ => false

/-- Whether a dictionary entry writes the `created_at` attribute. -/
def touchesCreatedAt : UpdEntry → Bool
  | UpdEntry.setCreatedAt _ => true
  | _ => false

theorem applyEntry_id_comm (s : UserSettings) (v : Option ℤ) (e : UpdEntry)
    (h : touchesId e = false) :
    applyEntry { s with id := v } e = { applyEntry s e with id := v } := by
  cases e <;> first | rfl | simp [touchesId] at h

theorem applyEntry_athlete_comm (s : UserSettings) (v : ℤ) (e : UpdEntry)
    (h : touchesAthleteId e = false) :
    applyEntry { s with athlete_id := v } e =
      { applyEntry s e with athlete_id := v } := by
  cases e <;> first | rfl | simp [touchesAthleteId] at h

theorem applyEntry_created_comm (s : UserSettings) (v : ℤ) (e : UpdEntry)
    (h : touchesCreatedAt e = false) :
    applyEntry { s with created_at := v } e =
      { applyEntry s e with created_at := v } := by
  cases e <;> first | rfl | simp [touchesCreatedAt] at h

theorem foldl_apply_id (upd : List UpdEntry) :
    ∀ (s : UserSettings) (v : Option ℤ),
      upd.all (fun e => !touchesId e) = true →
      upd.foldl applyEntry { s with id := v } =
        { upd.foldl applyEntry s with id := v } := by
  induction upd with
  | nil => intro s v _; rfl
  | cons e t ih =>
    intro s v hall
    simp only [List.all_cons, Bool.and_eq_true, Bool.not_eq_true'] at hall
    simp only [List.foldl_cons]
    rw [applyEntry_id_comm s v e hall.1,
      ih (applyEntry s e) v (by
        rw [List.all_eq_true]
        intro x hx
        have := (List.all_eq_true.1 hall.2) x hx
        exact this)]

theorem foldl_apply_athlete (upd : List UpdEntry) :
    ∀ (s : UserSettings) (v : ℤ),
      upd.all (fun e => !touchesAthleteId e) = true →
      upd.foldl applyEntry { s with athlete_id := v } =
        { upd.foldl applyEntry s with athlete_id := v } := by
  induction upd with
  | nil => intro s v _; rfl
  | cons e t ih =>
    intro s v hall
    simp only [List.all_cons, Bool.and_eq_true, Bool.not_eq_true'] at hall
    simp only [List.foldl_cons]
    rw [applyEntry_athlete_comm s v e hall.1, ih (applyEntry s e) v (by
      rw [List.all_eq_true]
      exact fun x hx => (List.all_eq_true.1 hall.2) x hx)]

theorem foldl_apply_created (upd : List UpdEntry) :
    ∀ (s : UserSettings) (v : ℤ),
      upd.all (fun e => !touchesCreatedAt e) = true →
      upd.foldl applyEntry { s with created_at := v } =
        { upd.foldl applyEntry s with created_at := v } := by
  induction upd with
  | nil => intro s v _; rfl
  | cons e t ih =>
    intro s v hall
    simp only [List.all_cons, Bool.and_eq_true, Bool.not_eq_true'] at hall
    simp only [List.foldl_cons]
    rw [applyEntry_created_comm s v e hall.1, ih (applyEntry s e) v (by
      rw [List.all_eq_true]
      exact fun x hx => (List.all_eq_true.1 hall.2) x hx)]

/-- C10: `update_settings` assigns every incoming key naming an existing
attribute via generic `setattr` with no validation of `id`,
`athlete_id` or `created_at`: prepending one of those entries never
changes the validation outcome and simply overwrites the corresponding
field of the result (note `created_at`, being distinct from
`updated_at`, survives `update_timestamp`), while a key that is not an
attribute is silently skipped. -/
theorem ant_c10 :
    (∀ (s : UserSettings) (upd : List UpdEntry) (now : ℤ) (v : Option ℤ),
      upd.all (fun e => !touchesId e) = true →
      update_settings s (UpdEntry.setId v :: upd) now =
        (update_settings s upd now).map (fun t => { t with id := v })) ∧
    (∀ (s : UserSettings) (upd : List UpdEntry) (now v : ℤ),
      upd.all (fun e => !touchesAthleteId e) = true →
      update_settings s (UpdEntry.setAthleteId v :: upd) now =
        (update_settings s upd now).map (fun t => { t with athlete_id := v })) ∧
    (∀ (s : UserSettings) (upd : List UpdEntry) (now v : ℤ),
      upd.all (fun e => !touchesCreatedAt e) = true →
      update_settings s (UpdEntry.setCreatedAt v :: upd) now =
        (update_settings s upd now).map (fun t => { t with created_at := v })) ∧
    (∀ (s : UserSettings) (upd : List UpdEntry) (now : ℤ) (k : String),
      update_settings s (UpdEntry.unknownKey k :: upd) now =
        update_settings s upd now) := by
  have hvalId : ∀ s upd (v : Option ℤ),
      settingsValidationError s (UpdEntry.setId v :: upd) =
        settingsValidationError s upd := fun s upd v => rfl
  have hvalAth : ∀ s upd (v : ℤ),
      settingsValidationError s (UpdEntry.setAthleteId v :: upd) =
        settingsValidationError s upd := fun s upd v => rfl
  have hvalCre : ∀ s upd (v : ℤ),
      settingsValidationError s (UpdEntry.setCreatedAt v :: upd) =
        settingsValidationError s upd := fun s upd v => rfl
  have hvalUnk : ∀ s upd (k : String),
      settingsValidationError s (UpdEntry.unknownKey k :: upd) =
        settingsValidationError s upd := fun s upd k => rfl
  refine ⟨?_, ?_, ?_, ?_⟩
  · intro s upd now v hall
    unfold update_settings
    rw [hvalId]
    cases hv : settingsValidationError s upd with
    | some code => rfl
    | none =>
      simp only [List.foldl_cons, Except.map]
      rw [show applyEntry s (UpdEntry.setId v) = { s with id := v } from rfl,
        foldl_apply_id upd s v hall]
  · intro s upd now v hall
    unfold update_settings
    rw [hvalAth]
    cases hv : settingsValidationError s upd with
    | some code => rfl
    | none =>
      simp only [List.foldl_cons, Except.map]
      rw [show applyEntry s (UpdEntry.setAthleteId v) =
          { s with athlete_id := v } from rfl,
        foldl_apply_athlete upd s v hall]
  · intro s upd now v hall
    unfold update_settings
    rw [hvalCre]
    cases hv : settingsValidationError s upd with
    | some code => rfl
    | none =>
      simp only [List.foldl_cons, Except.map]
      rw [show applyEntry s (UpdEntry.setCreatedAt v) =
          { s with created_at := v } from rfl,
        foldl_apply_created upd s v hall]
  · intro s upd now k
    unfold update_settings
    rw [hvalUnk]
    cases hv : settingsValidationError s upd with
    | some code => rfl
    | none => rfl

/-- C10 witness: prepending an `id` write to a validated update leaves
validation untouched and overwrites `id`; an unknown key is a no-op. -/
theorem ant_c10_witness :
    update_settings defaultUserSettings
        [UpdEntry.setId (some 9), UpdEntry.setMaxHeartRate 180] 50 =
      (update_settings defaultUserSettings [UpdEntry.setMaxHeartRate 180] 50).map
        (fun t => { t with id := some 9 }) ∧
    update_settings defaultUserSettings [UpdEntry.unknownKey "nope"] 50 =
      update_settings defaultUserSettings [] 50 := by
  exact ⟨ant_c10.1 defaultUserSettings [UpdEntry.setMaxHeartRate 180] 50
      (some 9) (by decide),
    ant_c10.2.2.2 defaultUserSettings [] 50 "nope"⟩

end Talaria
